import Mathlib

/-!
# ipasim dynamic loader (`src/IpaSimulator/IpaSimulator.cpp`)

A shallow embedding of the loader: the image registry `LIs`, the reverse
lookup, `load` with its Mach-O and PE branches, `findSymbol`, and the
fetch-protection trap handler.

Conventions.
* `uint64_t` values are natural numbers; every arithmetic result that the
  C++ code stores in a `uint64_t` is reduced modulo `2 ^ 64`, every 32-bit
  store modulo `2 ^ 32`.
* A `LoadedLibrary *` is the registry key of the record it points to (the
  registry owns each record through a `unique_ptr`), `none` is `nullptr`.
* Host memory is a byte map; guest addresses are host addresses.
* Collaborators outside the file (LIEF, the host loader, the storage layer,
  the emulator) are fields of `World`.
* A C++ `throw`, a null dereference and a failed `assert` end the run with a
  `Crash`; recursion through `load` and `findSymbol` is bounded by fuel.
* The execution controller (`execute`, `start`) and the tracing hooks are
  not part of the embedding.
-/

namespace IpaSim

/-! ## Machine arithmetic -/

/-- Reduction of a value to `uint64_t`. -/
def u64 (x : Nat) : Nat := x % 2 ^ 64

/-- Reduction of a value to `uint32_t`. -/
def u32 (x : Nat) : Nat := x % 2 ^ 32

/-- Subtraction of two `uint64_t` values, wrapping around. -/
def sub64 (a b : Nat) : Nat := (a + (2 ^ 64 - b % 2 ^ 64)) % 2 ^ 64

/-- Constant `R_SCATTERED` of `<mach-o/reloc.h>`. -/
def R_SCATTERED : Nat := 0x80000000

/-! ## Parsed Mach-O data (what LIEF hands to the loader) -/

/-- Relocation as reported by the parser for one segment. -/
structure Relocation where
  is_pc_relative : Bool
  originIsDyldInfo : Bool
  size : Nat
  address : Nat
deriving DecidableEq, Repr

/-- One `LC_SEGMENT` command with its content and relocations. -/
structure SegmentCommand where
  virtual_address : Nat
  virtual_size : Nat
  init_protection : Nat
  content : List Nat
  relocations : List Relocation
deriving DecidableEq, Repr

/-- Kind of a dylib load command. -/
inductive DylibKind where
  | LC_LOAD_DYLIB
  | LC_REEXPORT_DYLIB
  | otherDylib
deriving DecidableEq, Repr

/-- Dylib load command: its kind and the path it names. -/
structure DylibCommand where
  command : DylibKind
  name : String
deriving DecidableEq, Repr

/-- Values of `BINDING_CLASS`. -/
inductive BindingClass where
  | BIND_CLASS_WEAK
  | BIND_CLASS_LAZY
  | BIND_CLASS_STANDARD
  | BIND_CLASS_THREADED
deriving DecidableEq, Repr

/-- Values of `BIND_TYPES`. -/
inductive BindType where
  | BIND_TYPE_POINTER
  | BIND_TYPE_TEXT_ABSOLUTE32
  | BIND_TYPE_TEXT_PCREL32
deriving DecidableEq, Repr

/-- One record of the dyld binding info. -/
structure BindingInfo where
  binding_class : BindingClass
  binding_type : BindType
  addend : Int
  has_library : Bool
  libraryName : String
  symbolName : String
  address : Nat
deriving DecidableEq, Repr

/-- Values of `FILE_TYPES` the loader distinguishes. -/
inductive FileType where
  | MH_EXECUTE
  | MH_DYLIB
  | MH_BUNDLE
  | otherType
deriving DecidableEq, Repr

/-- Parsed Mach-O binary. -/
structure Binary where
  cpuIsArm : Bool
  hasSplitSegs : Bool
  file_type : FileType
  is_pie : Bool
  segments : List SegmentCommand
  libraries : List DylibCommand
  bindings : List BindingInfo
  symbols : List (String × Nat)
  entrypoint : Nat
deriving DecidableEq, Repr

/-- LIEF `Binary::has_symbol`. -/
def Binary.has_symbol (b : Binary) (n : String) : Bool :=
  b.symbols.any fun p => p.1 == n

/-- Value of `Binary::get_symbol(Name)`: the first symbol with that name. -/
def Binary.get_symbol (b : Binary) (n : String) : Nat :=
  match b.symbols.find? fun p => p.1 == n with
  | some p => p.2
  | none => 0

/-! ## Loaded libraries and the registry -/

/-- The two variants of `LoadedLibrary`. -/
inductive LibKind where
  | dylib (Bin : Binary)
  | dll (Ptr : Nat)
deriving DecidableEq, Repr

/-- Record `LoadedLibrary` with the fields common to both variants. The
class is declared in the absent header; a record that was just constructed
is taken to have zero address, zero size and a clear wrapper flag. -/
structure LoadedLibrary where
  StartAddress : Nat
  Size : Nat
  IsWrapperDLL : Bool
  kind : LibKind
deriving DecidableEq, Repr

/-- Method `LoadedLibrary::isInRange`; the sum is a `uint64_t`. -/
def LoadedLibrary.isInRange (l : LoadedLibrary) (Addr : Nat) : Bool :=
  decide (l.StartAddress ≤ Addr) && decide (Addr < u64 (l.StartAddress + l.Size))

/-- Modelled from the spec: `hasUnderscorePrefix` is declared in the absent
header; the convention flag is true for Mach-O images and false for native
ones. -/
def LoadedLibrary.hasUnderscorePrefix (l : LoadedLibrary) : Bool :=
  match l.kind with
  | .dylib _ => true
  | .dll _ => false

/-- Order of `std::string` keys: lexicographic on character codes. -/
def strLess : List Char → List Char → Bool
  | [], [] => false
  | [], _ :: _ => true
  | _ :: _, [] => false
  | a :: as, b :: bs =>
    if a.toNat < b.toNat then true
    else if b.toNat < a.toNat then false
    else strLess as bs

/-- The map `LIs`, as its entries in iteration (ascending key) order. -/
abbrev Registry := List (String × LoadedLibrary)

/-- A `LoadedLibrary *`: the key of the owning entry, `none` for `nullptr`. -/
abbrev LibPtr := Option String

/-- Lookup `LIs.find(Path)`. -/
def Registry.find : Registry → String → Option LoadedLibrary
  | [], _ => none
  | (k, v) :: rest, p => if k = p then some v else Registry.find rest p

/-- Assignment `LIs[Path] = record`: replaces the entry or inserts it at its
place in key order. -/
def Registry.assign : Registry → String → LoadedLibrary → Registry
  | [], p, r => [(p, r)]
  | (k, v) :: rest, p, r =>
    if k = p then (p, r) :: rest
    else if strLess p.data k.data then (p, r) :: (k, v) :: rest
    else (k, v) :: Registry.assign rest p r

/-- Removal `LIs.erase(Path)`. -/
def Registry.erase : Registry → String → Registry
  | [], _ => []
  | (k, v) :: rest, p => if k = p then rest else (k, v) :: Registry.erase rest p

/-- A write through a record pointer: the record under the key is changed
in place. -/
def Registry.modify : Registry → String → (LoadedLibrary → LoadedLibrary) → Registry
  | [], _, _ => []
  | (k, v) :: rest, p, f =>
    if k = p then (k, f v) :: rest else (k, v) :: Registry.modify rest p f

/-- Result `AddrInfo` of the reverse lookup. -/
structure AddrInfo where
  LibPath : Option String
  Lib : LibPtr
  SymbolName : String
deriving DecidableEq, Repr

/-- Function `DynamicLoader::lookup`: the first entry, in iteration order,
whose range contains the address. -/
def lookup : Registry → Nat → AddrInfo
  | [], _ => ⟨none, none, ""⟩
  | (k, v) :: rest, Addr =>
    if v.isInRange Addr then ⟨some k, some k, ""⟩ else lookup rest Addr

/-- Function `DynamicLoader::inspect`. -/
def inspect (LIs : Registry) (Addr : Nat) : AddrInfo := lookup LIs Addr

/-! ## Host memory -/

/-- Host memory, one byte per address. -/
abbrev Memory := Nat → Nat

/-- Load of a little-endian `uint32_t`. -/
def read32 (m : Memory) (a : Nat) : Nat :=
  m a % 256 + 256 * (m (a + 1) % 256) + 65536 * (m (a + 2) % 256)
    + 16777216 * (m (a + 3) % 256)

/-- Store of a value converted to `uint32_t`, little-endian. -/
def write32 (m : Memory) (a v : Nat) : Memory := fun x =>
  if x = a then v % 256
  else if x = a + 1 then v / 256 % 256
  else if x = a + 2 then v / 65536 % 256
  else if x = a + 3 then v / 16777216 % 256
  else m x

/-- Call `memcpy(dst, bytes, n)`. -/
def memcpy (m : Memory) (dst : Nat) (bytes : List Nat) : Memory := fun x =>
  if dst ≤ x ∧ x < dst + bytes.length then bytes.getD (x - dst) 0 % 256 else m x

/-- Call `memset(dst, 0, n)`. -/
def memzero (m : Memory) (dst n : Nat) : Memory := fun x =>
  if dst ≤ x ∧ x < dst + n then 0 else m x

/-- Loop of `getDylibSize` over `n` remaining load commands at `cmd`:
`LC_SEGMENT` is 1, `cmdsize` is at offset 4 and the `vmsize` of a
`segment_command_32` at offset 28; `Size` is a `size_t`. -/
def getDylibSizeLoop (m : Memory) : Nat → Nat → Nat → Nat
  | 0, _, Size => Size
  | n + 1, cmd, Size =>
    let Size1 := if read32 m cmd = 1 then u64 (Size + read32 m (cmd + 28)) else Size
    getDylibSizeLoop m n (cmd + read32 m (cmd + 4)) Size1

/-- Function `getDylibSize`: `ncmds` is at offset 16 of the 28-byte
`mach_header`, the load commands follow the header. -/
def getDylibSize (m : Memory) (Ptr : Nat) : Nat :=
  getDylibSizeLoop m (read32 m (Ptr + 16)) (Ptr + 28) 0

/-! ## Paths -/

/-- Pair `BinaryPath`. -/
structure BinaryPath where
  Path : String
  Relative : Bool
deriving DecidableEq, Repr

/-- Member `make_preferred` of `filesystem::path` on the host: every `/`
becomes a backslash. -/
def make_preferred (p : String) : String :=
  String.mk (p.data.map fun c => if c = '/' then '\\' else c)

/-- Bytes of the UTF-8 encoding of a code point. -/
def utf8Bytes (c : Nat) : List Nat :=
  if c < 0x80 then [c]
  else if c < 0x800 then [0xC0 + c / 64, 0x80 + c % 64]
  else if c < 0x10000 then [0xE0 + c / 4096, 0x80 + c / 64 % 64, 0x80 + c % 64]
  else [0xF0 + c / 262144, 0x80 + c / 4096 % 64, 0x80 + c / 64 % 64, 0x80 + c % 64]

/-- Content of a `std::string`: the bytes of the text (UTF-8), which is
what `length()` counts and `compare` compares. -/
def bytesOf (S : String) : List Nat :=
  S.data.flatMap fun c => utf8Bytes c.toNat

/-- Function `startsWith`: `!S.compare(0, Prefix.length(), Prefix)`. -/
def startsWith (S Pre : String) : Bool :=
  (bytesOf S).take (bytesOf Pre).length == bytesOf Pre

/-- Function `endsWith`: `!S.compare(S.length() - Suffix.length(), ...)`.
The position is a `size_t`; when `S` has fewer bytes than `Suffix` it wraps
around, is past the end of `S`, and `compare` throws `std::out_of_range`
(`none`). -/
def endsWith (S Suffix : String) : Option Bool :=
  if (bytesOf S).length < (bytesOf Suffix).length then none
  else some ((bytesOf S).drop ((bytesOf S).length - (bytesOf Suffix).length) == bytesOf Suffix)

/-- Characters after the last directory separator (`filename()`). -/
def filenameChars : List Char → List Char → List Char
  | [], acc => acc.reverse
  | c :: cs, acc =>
    if c = '/' ∨ c = '\\' then filenameChars cs [] else filenameChars cs (c :: acc)

/-- A file name without its extension: the part before the last dot, the
whole name when it has no dot, starts with its only dot, or is `..`. -/
def stemChars (name : List Char) : List Char :=
  if name = ['.', '.'] then name
  else
    match (name.reverse.dropWhile fun c => c ≠ '.') with
    | [] => name
    | _ :: before => if before = [] then name else before.reverse

/-- A path without its drive prefix (the root name `X:` of a host path). -/
def dropDrive : List Char → List Char
  | c :: ':' :: rest => if c.isAlpha then rest else c :: ':' :: rest
  | p => p

/-- Path `filesystem::path("gen") / filesystem::path(LibPath).filename()
.replace_extension(".wrapper.dll")` built by the trap handler. -/
def wrapperPath (LibPath : String) : String :=
  let name := stemChars (filenameChars (dropDrive LibPath.data) [])
  String.mk ("gen\\".data ++ name ++ ".wrapper.dll".data)

/-! ## The environment -/

/-- Modelled from the spec: `WrapperIndex` is declared in the absent
`WrapperIndex.hpp`; it holds a map from RVA to an index into a sequence of
dylib paths, and that sequence. -/
structure WrapperIndex where
  Map : List (Nat × Nat)
  Dylibs : List String
deriving DecidableEq, Repr

/-- Calls of the emulator API made by the loader. -/
inductive UcCall where
  | mem_map_ptr (Addr Size Perms : Nat)
  | reg_read (Reg : Nat)
  | reg_write (Reg Val : Nat)
  | emu_stop
deriving DecidableEq, Repr

/-- Emulator register `UC_ARM_REG_R0` (the numbering is the model's). -/
def UC_ARM_REG_R0 : Nat := 0
/-- Emulator register `UC_ARM_REG_LR`. -/
def UC_ARM_REG_LR : Nat := 14
/-- Emulator register `UC_ARM_REG_PC`. -/
def UC_ARM_REG_PC : Nat := 15

/-- Permission bits of the emulator. -/
def UC_PROT_NONE : Nat := 0
/-- Read permission. -/
def UC_PROT_READ : Nat := 1
/-- Write permission. -/
def UC_PROT_WRITE : Nat := 2
/-- Execute permission. -/
def UC_PROT_EXEC : Nat := 4

/-- Everything outside the file that the loader consults. -/
structure World where
  /-- Page size of the emulator (declared in the absent header). -/
  PageSize : Nat
  /-- Storage layer: `isFileValid(BP)`. -/
  isFileValid : BinaryPath → Bool
  /-- Format sniffing `LIEF::MachO::is_macho`. -/
  is_macho : String → Bool
  /-- Format sniffing `LIEF::PE::is_pe`. -/
  is_pe : String → Bool
  /-- Parser `LIEF::MachO::Parser::parse`. -/
  parse : String → Binary
  /-- Host loader `LoadPackagedLibrary`; 0 is failure. -/
  LoadPackagedLibrary : String → Nat
  /-- Host `GetProcAddress`; 0 is not found. -/
  GetProcAddress : Nat → String → Nat
  /-- Host `GetModuleInformation`: base and size of image, `none` on failure. -/
  GetModuleInformation : Nat → Option (Nat × Nat)
  /-- Host `_aligned_malloc`, by number of the call and size; 0 is failure. -/
  aligned_malloc : Nat → Nat → Nat
  /-- Status returned by an emulator call; 0 is `UC_ERR_OK`. -/
  uc : UcCall → Nat
  /-- Host `filesystem::path(Path).is_relative()`. -/
  is_relative : String → Bool
  /-- The `WrapperIndex` object found at a host address (`none` at an
  address that holds none, in particular at 0). -/
  wrapperIndexAt : Nat → Option WrapperIndex
  /-- Effect on host memory of the native call `Func(Arg)`. -/
  native : Nat → Nat → Memory → Memory

/-- Modelled from the spec: `alignToPageSize` is declared in the absent
header; it aligns an address down to the page size. -/
def alignToPageSize (w : World) (Addr : Nat) : Nat := Addr / w.PageSize * w.PageSize

/-- Modelled from the spec: `roundToPageSize` is declared in the absent
header; it rounds a `uint64_t` up to the page size. -/
def roundToPageSize (w : World) (Addr : Nat) : Nat :=
  alignToPageSize w (u64 (Addr + w.PageSize - 1))

/-- Function `DynamicLoader::resolvePath`. -/
def resolvePath (w : World) (Path : String) : BinaryPath :=
  match Path.data with
  | '/' :: _ => ⟨make_preferred ("gen" ++ Path), true⟩
  | _ => ⟨Path, w.is_relative Path⟩

/-! ## Loader state and outcomes -/

/-- Calls into collaborators that leave a trace. -/
inductive Event where
  | parsed (Path : String)
  | hostLoad (Path : String)
  | uc (call : UcCall)
  | nativeCall (Func Arg : Nat)
  | fetchInfo (LibPath : String) (RVA : Nat) (notWrapper : Bool)
deriving DecidableEq, Repr

/-- State of a `DynamicLoader` together with the host and emulator state
it acts on. -/
structure State where
  LIs : Registry
  KernelAddr : Nat
  mem : Memory
  regs : Nat → Nat
  stopped : Bool
  nalloc : Nat
  errors : List String
  events : List Event

/-- Ways a run ends without returning. -/
inductive Crash where
  | thrown (what : String)
  | nullDeref
  | badIndex
  | assertFailed
  | outOfFuel
deriving DecidableEq, Repr

/-- Result of a loader operation: a value and the new state, or a crash
with the state reached. -/
inductive Outcome (α : Type) where
  | ok (v : α) (s : State)
  | crash (c : Crash) (s : State)

/-- Sequencing of two operations. -/
def Outcome.bind {α β : Type} (o : Outcome α) (f : α → State → Outcome β) : Outcome β :=
  match o with
  | .ok v s => f v s
  | .crash c s => .crash c s

/-- Function `DynamicLoader::error`: the message is reported. -/
def error (s : State) (Msg : String) : State :=
  { s with errors := s.errors ++ [Msg] }

/-- Function `callUC` applied to an emulator call: the call is made, a
non-zero status throws. -/
def callUC (w : World) (c : UcCall) (s : State) : Outcome Unit :=
  let s1 := { s with events := s.events ++ [.uc c] }
  if w.uc c = 0 then .ok () s1 else .crash (.thrown "unicorn error") s1

/-- Function `DynamicLoader::mapMemory`. -/
def mapMemory (w : World) (Addr Size Perms : Nat) (s : State) : Outcome Unit :=
  callUC w (.mem_map_ptr Addr Size Perms) s

/-- Constructor `DynamicLoader::DynamicLoader`: the kernel page is
allocated and mapped without permissions. -/
def DynamicLoader (w : World) (mem : Memory) (regs : Nat → Nat) : Outcome Unit :=
  let KernelPtr := w.aligned_malloc 0 w.PageSize
  mapMemory w KernelPtr w.PageSize UC_PROT_NONE
    { LIs := [], KernelAddr := KernelPtr, mem := mem, regs := regs, stopped := false,
      nalloc := 1, errors := [], events := [] }

/-! ## Symbol lookup -/

/-- Type of `DynamicLoader::load` as seen by its callers. -/
abbrev LoadFn := String → State → Outcome LibPtr

/-- Type of the virtual `LoadedLibrary::findSymbol`: record, name. -/
abbrev FindFn := String → String → State → Outcome Nat

/-- Method `LoadedDll::findSymbol`. -/
def LoadedDll.findSymbol (w : World) (Ptr : Nat) (Name : String) : Nat :=
  w.GetProcAddress Ptr Name

/-- The name handed to a re-exported library: without its leading
underscore when the library has no underscore prefixes and `Name[0]` is an
underscore. -/
def delegatedName (hasUnderscore : Bool) (Name : String) : String :=
  if !hasUnderscore && Name.data.head? = some '_' then String.mk (Name.data.drop 1)
  else Name

/-- Loop of `LoadedDylib::findSymbol` over `Bin.libraries()`. -/
def reexportLoop (ld : LoadFn) (fs : FindFn) (Name : String) :
    List DylibCommand → State → Outcome Nat
  | [], s => .ok 0 s
  | Lib :: rest, s =>
    if Lib.command = .LC_REEXPORT_DYLIB then
      (ld Lib.name s).bind fun LL s1 =>
        match LL with
        | none => .crash .nullDeref s1
        | some k =>
          match s1.LIs.find k with
          | none => .crash .nullDeref s1
          | some r =>
            (fs k (delegatedName r.hasUnderscorePrefix Name) s1).bind fun SymAddr s2 =>
              if SymAddr ≠ 0 then .ok SymAddr s2 else reexportLoop ld fs Name rest s2
    else reexportLoop ld fs Name rest s

/-- Method `LoadedDylib::findSymbol` on a record with binary `Bin`. -/
def LoadedDylib.findSymbol (ld : LoadFn) (fs : FindFn) (StartAddress : Nat) (Bin : Binary)
    (Name : String) (s : State) : Outcome Nat :=
  if !Bin.has_symbol Name then reexportLoop ld fs Name Bin.libraries s
  else .ok (u64 (StartAddress + Bin.get_symbol Name)) s

/-- Virtual call `L->findSymbol(DL, Name)` through a record pointer. -/
def findSymbolStep (w : World) (ld : LoadFn) (fs : FindFn) (L : String) (Name : String)
    (s : State) : Outcome Nat :=
  match s.LIs.find L with
  | none => .crash .nullDeref s
  | some r =>
    match r.kind with
    | .dll Ptr => .ok (LoadedDll.findSymbol w Ptr Name) s
    | .dylib Bin => LoadedDylib.findSymbol ld fs r.StartAddress Bin Name s

/-! ## Mach-O loading -/

/-- Function `DynamicLoader::canSegmentsSlide`. -/
def canSegmentsSlide (Bin : Binary) : Bool :=
  Bin.file_type = .MH_DYLIB || Bin.file_type = .MH_BUNDLE ||
    (Bin.file_type = .MH_EXECUTE && Bin.is_pie)

/-- Header checks of `loadMachO`. -/
def checkHeader (Bin : Binary) (s : State) : State :=
  let s1 := if !Bin.cpuIsArm then error s "expected ARM binary" else s
  let s2 := if Bin.hasSplitSegs then error s1 "MH_SPLIT_SEGS not supported" else s1
  if !canSegmentsSlide Bin then error s2 "the binary is not slideable" else s2

/-- Bounds `LowAddr` and `HighAddr` while `loadMachO` sizes the address
space. -/
structure Bounds where
  LowAddr : Nat
  HighAddr : Nat
deriving DecidableEq, Repr

/-- Body of the sizing loop of `loadMachO` for one segment. -/
def sizeSegment (w : World) (acc : Bounds × State) (Seg : SegmentCommand) : Bounds × State :=
  let b := acc.1
  let SegLow := Seg.virtual_address
  let SegHigh := roundToPageSize w (u64 (SegLow + Seg.virtual_size))
  let s1 :=
    if (SegLow < b.HighAddr ∧ SegLow ≥ b.LowAddr) ∨ (SegHigh > b.LowAddr ∧ SegHigh ≤ b.HighAddr)
    then error acc.2 "overlapping segments (after rounding to pagesize)" else acc.2
  let Low := if SegLow < b.LowAddr then SegLow else b.LowAddr
  let High := if SegHigh > b.HighAddr then SegHigh else b.HighAddr
  (⟨Low, High⟩, s1)

/-- Sizing loop of `loadMachO` from `LowAddr = (uint64_t)(-1)`,
`HighAddr = 0`. -/
def sizeSegments (w : World) (segs : List SegmentCommand) (s : State) : Bounds × State :=
  segs.foldl (sizeSegment w) (⟨2 ^ 64 - 1, 0⟩, s)

/-- Conversion of the initial VM protection (bits 1, 2, 4 are read, write,
execute) to emulator permissions. -/
def toPerms (VMProt : Nat) : Nat :=
  (if VMProt % 2 = 1 then UC_PROT_READ else 0) + (if VMProt / 2 % 2 = 1 then UC_PROT_WRITE else 0)
    + (if VMProt / 4 % 2 = 1 then UC_PROT_EXEC else 0)

/-- Address `RelAddr` of a relocation site: `RelBase + Rel.address()` with
`RelBase = LowAddr + Slide`. -/
def relocSite (LowAddr Slide : Nat) (Rel : Relocation) : Nat :=
  u64 (u64 (LowAddr + Slide) + Rel.address)

/-- Body of the relocation loop of `loadMachO` for one relocation of the
segment mapped at `VAddr` with size `VSize`. -/
def relocate (LowAddr Slide VAddr VSize : Nat) (s : State) (Rel : Relocation) : State :=
  let s1 :=
    if Rel.is_pc_relative ∨ Rel.originIsDyldInfo = false ∨ Rel.size ≠ 32
        ∨ Rel.address / R_SCATTERED % 2 = 1
    then error s "unsupported relocation" else s
  let RelAddr := relocSite LowAddr Slide Rel
  let s2 :=
    if RelAddr > u64 (VAddr + VSize) ∨ RelAddr < VAddr
    then error s1 "relocation target out of range" else s1
  let Val := read32 s2.mem RelAddr
  if Val ≠ 0 then { s2 with mem := write32 s2.mem RelAddr (u64 (Val + Slide)) } else s2

/-- Relocation loop of `loadMachO` for one segment. -/
def relocateSegment (LowAddr Slide VAddr VSize : Nat) (rels : List Relocation) (s : State) :
    State :=
  rels.foldl (relocate LowAddr Slide VAddr VSize) s

/-- Relocation of one segment as `loadMachO` does it: the loop runs only if
`Slide > 0`. -/
def rebaseSegment (LowAddr Slide VAddr VSize : Nat) (rels : List Relocation) (s : State) :
    State :=
  if Slide > 0 then relocateSegment LowAddr Slide VAddr VSize rels s else s

/-- Body of the segment loop of `loadMachO`: map, copy, clear, relocate. -/
def loadSegment (w : World) (LowAddr Slide : Nat) (Seg : SegmentCommand) (s : State) :
    Outcome Unit :=
  let Perms := toPerms Seg.init_protection
  let VAddr := u64 (Seg.virtual_address + Slide)
  let VSize := Seg.virtual_size
  let mapped : Outcome Unit :=
    if Perms = UC_PROT_NONE then mapMemory w VAddr VSize Perms s
    else
      (mapMemory w VAddr VSize Perms { s with mem := memcpy s.mem VAddr Seg.content }).bind
        fun _ s1 =>
          if Seg.content.length < VSize then
            .ok () { s1 with mem := memzero s1.mem (VAddr + Seg.content.length)
                                      (VSize - Seg.content.length) }
          else .ok () s1
  mapped.bind fun _ s2 => .ok () (rebaseSegment LowAddr Slide VAddr VSize Seg.relocations s2)

/-- Segment loop of `loadMachO`. -/
def loadSegments (w : World) (LowAddr Slide : Nat) : List SegmentCommand → State → Outcome Unit
  | [], s => .ok () s
  | Seg :: rest, s => (loadSegment w LowAddr Slide Seg s).bind fun _ s1 =>
      loadSegments w LowAddr Slide rest s1

/-- Loop of `loadMachO` that loads the referenced libraries. -/
def loadLibraries (ld : LoadFn) : List DylibCommand → State → Outcome Unit
  | [], s => .ok () s
  | Lib :: rest, s => (ld Lib.name s).bind fun _ s1 => loadLibraries ld rest s1

/-- Check of the binding's kind in `loadMachO`. -/
def unsupportedBinding (BInfo : BindingInfo) : Bool :=
  (BInfo.binding_class ≠ .BIND_CLASS_STANDARD && BInfo.binding_class ≠ .BIND_CLASS_LAZY)
    || BInfo.binding_type ≠ .BIND_TYPE_POINTER || BInfo.addend ≠ 0

/-- Body of the binding loop of `loadMachO` for one record; `LLP` is the
record being loaded. -/
def bindSymbol (ld : LoadFn) (fs : FindFn) (LLP : String) (Slide : Nat) (BInfo : BindingInfo)
    (s : State) : Outcome Unit :=
  if unsupportedBinding BInfo then .ok () (error s "unsupported binding info")
  else if !BInfo.has_library then
    .ok () (error s "flat-namespace symbols are not supported yet")
  else
    (ld BInfo.libraryName s).bind fun Lib s1 =>
      match Lib with
      | none => .ok () (error s1 "symbol's library couldn't be loaded")
      | some L =>
        (fs L BInfo.symbolName s1).bind fun SymAddr s2 =>
          if SymAddr = 0 then .ok () (error s2 "external symbol couldn't be resolved")
          else
            let TargetAddr := u64 (BInfo.address + Slide)
            match s2.LIs.find LLP with
            | none => .crash .nullDeref s2
            | some r =>
              if r.isInRange TargetAddr then
                .ok () { s2 with mem := write32 s2.mem TargetAddr SymAddr }
              else .crash (.thrown "address out of range") s2

/-- Binding loop of `loadMachO`. -/
def bindSymbols (ld : LoadFn) (fs : FindFn) (LLP : String) (Slide : Nat) :
    List BindingInfo → State → Outcome Unit
  | [], s => .ok () s
  | BInfo :: rest, s => (bindSymbol ld fs LLP Slide BInfo s).bind fun _ s1 =>
      bindSymbols ld fs LLP Slide rest s1

/-- Function `DynamicLoader::loadMachO`. -/
def loadMachO (w : World) (ld : LoadFn) (fs : FindFn) (Path : String) (s : State) :
    Outcome LibPtr :=
  let Bin := w.parse Path
  let s0 : State :=
    { s with LIs := Registry.assign s.LIs Path ⟨0, 0, false, .dylib Bin⟩
             events := s.events ++ [.parsed Path] }
  let s1 := checkHeader Bin s0
  let b := (sizeSegments w Bin.segments s1).1
  let s2 := (sizeSegments w Bin.segments s1).2
  let Size := sub64 b.HighAddr b.LowAddr
  let Addr := w.aligned_malloc s2.nalloc Size
  let s3 := { s2 with nalloc := s2.nalloc + 1 }
  let s4 := if Addr = 0 then error s3 "couldn't allocate memory for segments" else s3
  let Slide := sub64 Addr b.LowAddr
  let s5 := { s4 with LIs := Registry.modify s4.LIs Path fun r =>
    { r with StartAddress := Slide, Size := Size } }
  (loadSegments w b.LowAddr Slide Bin.segments s5).bind fun _ s6 =>
    (loadLibraries ld Bin.libraries s6).bind fun _ s7 =>
      (bindSymbols ld fs Path Slide Bin.bindings s7).bind fun _ s8 =>
        .ok (some Path) s8

/-! ## Native loading -/

/-- Function `DynamicLoader::loadPE`. -/
def loadPE (w : World) (Path : String) (s : State) : Outcome LibPtr :=
  let s0 : State := { s with LIs := Registry.assign s.LIs Path ⟨0, 0, false, .dll 0⟩ }
  let Lib := w.LoadPackagedLibrary Path
  let s1 := { s0 with events := s0.events ++ [.hostLoad Path] }
  if Lib = 0 then
    let s2 := error s1 ("couldn't load DLL: " ++ Path)
    .ok none { s2 with LIs := Registry.erase s2.LIs Path }
  else
    let s2 := { s1 with LIs := Registry.modify s1.LIs Path fun r => { r with kind := .dll Lib } }
    let Hdr := LoadedDll.findSymbol w Lib "_mh_dylib_header"
    let located : Option State :=
      if Hdr ≠ 0 then
        some { s2 with LIs := Registry.modify s2.LIs Path fun r =>
          { r with StartAddress := Hdr, Size := getDylibSize s2.mem Hdr } }
      else
        match w.GetModuleInformation Lib with
        | none => none
        | some Info =>
          some { s2 with LIs := Registry.modify s2.LIs Path fun r =>
            { r with StartAddress := Info.1, Size := Info.2 } }
    match located with
    | none => .ok none (error s2 "couldn't load module information")
    | some s3 =>
      match s3.LIs.find Path with
      | none => .crash .nullDeref s3
      | some r =>
        (mapMemory w (alignToPageSize w r.StartAddress) (roundToPageSize w r.Size)
          (UC_PROT_READ + UC_PROT_WRITE) s3).bind fun _ s4 => .ok (some Path) s4

/-! ## The registry operation `load` -/

/-- Value of `BP.Relative && startsWith(BP.Path, "gen\\") &&
endsWith(BP.Path, ".wrapper.dll")`, evaluated left to right; `none` when
`endsWith` throws. -/
def wrapperFlag (BP : BinaryPath) : Option Bool :=
  if BP.Relative && startsWith BP.Path "gen\\" then endsWith BP.Path ".wrapper.dll"
  else some false

/-- Assignment `L->IsWrapperDLL = ...` at the end of `load`: the right
side is evaluated, then stored through `L`. -/
def setWrapperFlag (BP : BinaryPath) (L : LibPtr) (s : State) : Outcome LibPtr :=
  match wrapperFlag BP with
  | none => .crash (.thrown "std::out_of_range") s
  | some flag =>
    match L with
    | none => .crash .nullDeref s
    | some k =>
      .ok (some k) { s with LIs := Registry.modify s.LIs k fun r =>
        { r with IsWrapperDLL := flag } }

/-- Function `DynamicLoader::load`, with the functions it calls back. -/
def loadStep (w : World) (ld : LoadFn) (fs : FindFn) (Path : String) (s : State) :
    Outcome LibPtr :=
  let BP := resolvePath w Path
  match s.LIs.find BP.Path with
  | some _ => .ok (some BP.Path) s
  | none =>
    if !w.isFileValid BP then .ok none (error s ("invalid file: " ++ BP.Path))
    else if w.is_macho BP.Path then (loadMachO w ld fs BP.Path s).bind (setWrapperFlag BP)
    else if w.is_pe BP.Path then (loadPE w BP.Path s).bind (setWrapperFlag BP)
    else .ok none (error s ("invalid binary type: " ++ BP.Path))

/-- The mutually recursive `load` and `findSymbol` with a bound on the
depth of calls. -/
def loaderFns (w : World) : Nat → LoadFn × FindFn
  | 0 => (fun _ s => .crash .outOfFuel s, fun _ _ s => .crash .outOfFuel s)
  | n + 1 =>
    (loadStep w (loaderFns w n).1 (loaderFns w n).2,
     findSymbolStep w (loaderFns w n).1 (loaderFns w n).2)

/-- Function `DynamicLoader::load` with call depth at most `fuel`. -/
def load (w : World) (fuel : Nat) : LoadFn := (loaderFns w fuel).1

/-- Virtual `LoadedLibrary::findSymbol` with call depth at most `fuel`. -/
def findSymbol (w : World) (fuel : Nat) : FindFn := (loaderFns w fuel).2

/-! ## The fetch-protection trap -/

/-- Function `to_hex_string`. -/
def to_hex_string (Value : Nat) : String := String.mk (Nat.toDigits 16 Value)

/-- Tail of `handleFetchProtMem` from the logging on: `Addr` is the target,
`AI` its lookup, `Wrapper` the flag read on entry. -/
def dispatch (w : World) (Wrapper : Bool) (Addr : Nat) (AI : AddrInfo) (s : State) :
    Outcome Bool :=
  match AI.LibPath, AI.Lib with
  | some LibPath, some L =>
    match s.LIs.find L with
    | none => .crash .nullDeref s
    | some r =>
      let RVA := sub64 Addr r.StartAddress
      let s1 := { s with events := s.events ++ [.fetchInfo LibPath RVA (!Wrapper)] }
      if !Wrapper then
        let PC := u32 Addr
        (callUC w (.reg_write UC_ARM_REG_PC PC) s1).bind fun _ s2 =>
          .ok true { s2 with regs := Function.update s2.regs UC_ARM_REG_PC PC }
      else
        (callUC w (.reg_read UC_ARM_REG_R0) s1).bind fun _ s2 =>
          let R0 := s2.regs UC_ARM_REG_R0
          let s3 := { s2 with mem := w.native Addr R0 s2.mem
                              events := s2.events ++ [.nativeCall Addr R0] }
          (callUC w (.reg_read UC_ARM_REG_LR) s3).bind fun _ s4 =>
            let LR := s4.regs UC_ARM_REG_LR
            (callUC w (.reg_write UC_ARM_REG_PC LR) s4).bind fun _ s5 =>
              .ok true { s5 with regs := Function.update s5.regs UC_ARM_REG_PC LR }
  | _, _ => .crash .nullDeref s

/-- Search for the wrapper of a target in the non-wrapper image `L` with
path `LibPath` (the first `if (!Wrapper)` block of `handleFetchProtMem`):
the address of the wrapper and its lookup, or the value returned early. -/
def findWrapper (w : World) (ld : LoadFn) (fs : FindFn) (Addr : Nat) (LibPath L : String)
    (s : State) : Outcome (Bool ⊕ (Nat × AddrInfo)) :=
  (ld (wrapperPath LibPath) s).bind fun WrapperLib s1 =>
    match WrapperLib with
    | none => .ok (.inl false) s1
    | some WL =>
      (fs WL "?Idx@@3UWrapperIndex@@A" s1).bind fun IdxAddr s2 =>
        match s2.LIs.find L with
        | none => .crash .nullDeref s2
        | some r =>
          let RVA := u64 (sub64 Addr r.StartAddress + 0x1000)
          match w.wrapperIndexAt IdxAddr with
          | none => .crash .nullDeref s2
          | some Idx =>
            match Idx.Map.find? fun e => e.1 = RVA with
            | none => .ok (.inl false) (error s2 "cannot find RVA in WrapperIndex")
            | some Entry =>
              match Idx.Dylibs.get? Entry.2 with
              | none => .crash .badIndex s2
              | some Dylib =>
                (ld Dylib s2).bind fun WrapperDylib s3 =>
                  match WrapperDylib with
                  | none => .ok (.inl false) s3
                  | some WD =>
                    (fs WD ("$__ipaSim_wraps_" ++ toString RVA) s3).bind fun Addr1 s4 =>
                      if Addr1 = 0 then
                        .ok (.inl false) (error s4 ("cannot find wrapper for 0x"
                          ++ to_hex_string RVA ++ " in " ++ LibPath))
                      else
                        let AI := lookup s4.LIs Addr1
                        if AI.Lib.isSome then .ok (.inr (Addr1, AI)) s4
                        else .crash .assertFailed s4

/-- Function `DynamicLoader::handleFetchProtMem`, with the functions it
calls. -/
def handleFetchProtMemStep (w : World) (ld : LoadFn) (fs : FindFn) (Addr : Nat) (s : State) :
    Outcome Bool :=
  let AI := lookup s.LIs Addr
  match AI.Lib with
  | none =>
    if Addr = s.KernelAddr then
      (callUC w .emu_stop s).bind fun _ s1 => .ok true { s1 with stopped := true }
    else .ok false (error s "unmapped address fetched")
  | some L =>
    match s.LIs.find L with
    | none => .crash .nullDeref s
    | some r =>
      let Wrapper := r.IsWrapperDLL
      if !Wrapper then
        match AI.LibPath with
        | none => .crash .nullDeref s
        | some LibPath =>
          (findWrapper w ld fs Addr LibPath L s).bind fun found s1 =>
            match found with
            | .inl ret => .ok ret s1
            | .inr (Addr1, AI1) => dispatch w Wrapper Addr1 AI1 s1
      else dispatch w Wrapper Addr AI s

/-- Function `DynamicLoader::handleFetchProtMem` with call depth of the
loader at most `fuel`. -/
def handleFetchProtMem (w : World) (fuel : Nat) (Addr : Nat) (s : State) : Outcome Bool :=
  handleFetchProtMemStep w (load w fuel) (findSymbol w fuel) Addr s

/-! ## Observations on outcomes -/

/-- Value returned, when the operation returned. -/
def Outcome.value? {α : Type} : Outcome α → Option α
  | .ok v _ => some v
  | .crash _ _ => none

/-- Crash that ended the operation, when it did not return. -/
def Outcome.crashed? {α : Type} : Outcome α → Option Crash
  | .ok _ _ => none
  | .crash c _ => some c

/-- State reached by the operation. -/
def Outcome.state {α : Type} : Outcome α → State
  | .ok _ s => s
  | .crash _ s => s

/-! ## Predicates used in the statements -/

/-- Every key of the first registry is a key of the second. -/
def KeysLe (m m1 : Registry) : Prop :=
  ∀ k, Registry.find m k ≠ none → Registry.find m1 k ≠ none

/-- A `load` function that, when it returns, keeps every registered key. -/
def LoadMono (ld : LoadFn) : Prop :=
  ∀ p s r s1, ld p s = .ok r s1 → KeysLe s.LIs s1.LIs

/-- A `findSymbol` function that, when it returns, keeps every registered
key. -/
def FindMono (fs : FindFn) : Prop :=
  ∀ L N s r s1, fs L N s = .ok r s1 → KeysLe s.LIs s1.LIs

/-- Two 32-bit words at these addresses share no byte. -/
def WordsApart (a b : Nat) : Prop := a + 4 ≤ b ∨ b + 4 ≤ a

instance (a b : Nat) : Decidable (WordsApart a b) := by
  unfold WordsApart
  infer_instance

/-- The ranges `[vmaddr, round_to_page(vmaddr + vmsize))` of two segments
intersect. -/
def RangesIntersect (w : World) (A B : SegmentCommand) : Prop :=
  max A.virtual_address B.virtual_address
    < min (roundToPageSize w (u64 (A.virtual_address + A.virtual_size)))
        (roundToPageSize w (u64 (B.virtual_address + B.virtual_size)))

instance (w : World) (A B : SegmentCommand) : Decidable (RangesIntersect w A B) := by
  unfold RangesIntersect
  infer_instance

/-- An event is a native call. -/
def Event.isNativeCall : Event → Bool
  | .nativeCall _ _ => true
  | _ => false

/-! ## Re-exported symbols, as the specification words them -/

/-- Registry keys of the libraries an image re-exports, in load-command
order. -/
def reexportedKeys (w : World) (libs : List DylibCommand) : List String :=
  (libs.filter fun Lib => Lib.command = .LC_REEXPORT_DYLIB).map fun Lib =>
    (resolvePath w Lib.name).Path

/-- Specification of the lookup through re-exported images: the loaded
images `B` are asked in order for the name (without its leading underscore
when `B` does not use the underscore convention), the first non-zero answer
is the result, and zero when there is none. -/
def firstResolved (fs : FindFn) (Name : String) : List String → State → Outcome Nat
  | [], s => .ok 0 s
  | B :: rest, s =>
    match s.LIs.find B with
    | none => .crash .nullDeref s
    | some r =>
      (fs B (delegatedName r.hasUnderscorePrefix Name) s).bind fun SymAddr s1 =>
        if SymAddr ≠ 0 then .ok SymAddr s1 else firstResolved fs Name rest s1

/-! ## The image before rebasing, and the phases of `loadMachO` -/

/-- Bytes that the segment loop of `loadMachO` copies and clears for one
segment mapped with slide `Slide`, without any relocation. -/
def placeSegment (Slide : Nat) (m : Memory) (Seg : SegmentCommand) : Memory :=
  if toPerms Seg.init_protection = UC_PROT_NONE then m
  else if Seg.content.length < Seg.virtual_size then
    memzero (memcpy m (u64 (Seg.virtual_address + Slide)) Seg.content)
      (u64 (Seg.virtual_address + Slide) + Seg.content.length)
      (Seg.virtual_size - Seg.content.length)
  else memcpy m (u64 (Seg.virtual_address + Slide)) Seg.content

/-- The pre-image of a Mach-O loaded with slide `Slide` into memory `m`:
every segment copied and cleared at its slid address, no pointer rebased. -/
def preImage (Slide : Nat) (segs : List SegmentCommand) (m : Memory) : Memory :=
  segs.foldl (placeSegment Slide) m

/-- The 32-bit word at `a` shares no byte with what the segment loop copies
or clears for the segment. -/
def Untouched (Slide : Nat) (Seg : SegmentCommand) (a : Nat) : Prop :=
  toPerms Seg.init_protection = UC_PROT_NONE
    ∨ a + 4 ≤ u64 (Seg.virtual_address + Slide)
    ∨ (u64 (Seg.virtual_address + Slide) + Seg.content.length ≤ a
        ∧ u64 (Seg.virtual_address + Slide) + Seg.virtual_size ≤ a)

instance (Slide : Nat) (Seg : SegmentCommand) (a : Nat) : Decidable (Untouched Slide Seg a) := by
  unfold Untouched
  infer_instance

/-- Two memories hold the same four bytes at `a`. -/
def AgreeAt (a : Nat) (m1 m2 : Memory) : Prop :=
  ∀ i, i < 4 → m1 (a + i) = m2 (a + i)

/-- Bounds and state of `loadMachO(Path)` when its sizing loop is done. -/
def machoSized (w : World) (Path : String) (s : State) : Bounds × State :=
  sizeSegments w (w.parse Path).segments
    (checkHeader (w.parse Path)
      { s with LIs := Registry.assign s.LIs Path ⟨0, 0, false, .dylib (w.parse Path)⟩
               events := s.events ++ [.parsed Path] })

/-- Value of `LowAddr` in `loadMachO(Path)`. -/
def machoLow (w : World) (Path : String) (s : State) : Nat :=
  (machoSized w Path s).1.LowAddr

/-- Value of `Size` in `loadMachO(Path)`. -/
def machoSize (w : World) (Path : String) (s : State) : Nat :=
  sub64 (machoSized w Path s).1.HighAddr (machoSized w Path s).1.LowAddr

/-- Value of `Slide` in `loadMachO(Path)`: the allocation less `LowAddr`. -/
def machoSlide (w : World) (Path : String) (s : State) : Nat :=
  sub64 (w.aligned_malloc (machoSized w Path s).2.nalloc (machoSize w Path s)) (machoLow w Path s)

/-- Function `loadMachO(Path)` up to the end of its segment loop. -/
def segmentsLoaded (w : World) (Path : String) (s : State) : Outcome Unit :=
  let s2 := (machoSized w Path s).2
  let s3 := { s2 with nalloc := s2.nalloc + 1 }
  let s4 :=
    if w.aligned_malloc s2.nalloc (machoSize w Path s) = 0 then
      error s3 "couldn't allocate memory for segments"
    else s3
  let s5 := { s4 with LIs := Registry.modify s4.LIs Path fun r =>
    { r with StartAddress := machoSlide w Path s, Size := machoSize w Path s } }
  loadSegments w (machoLow w Path s) (machoSlide w Path s) (w.parse Path).segments s5

/-- Address of the relocation site of `Rel` in the image that
`loadMachO(Path)` loads from state `s`. -/
def siteOf (w : World) (Path : String) (s : State) (Rel : Relocation) : Nat :=
  relocSite (machoLow w Path s) (machoSlide w Path s) Rel

/-! ## Example environments and states -/

/-- A Mach-O binary without content. -/
def emptyBinary : Binary :=
  { cpuIsArm := true, hasSplitSegs := false, file_type := .MH_DYLIB, is_pie := false,
    segments := [], libraries := [], bindings := [], symbols := [], entrypoint := 0 }

/-- An environment without files, in which every emulator call succeeds
and allocation number `n` is at `0x100000 * (n + 1)`. -/
def emptyWorld : World :=
  { PageSize := 0x1000
    isFileValid := fun _ => false
    is_macho := fun _ => false
    is_pe := fun _ => false
    parse := fun _ => emptyBinary
    LoadPackagedLibrary := fun _ => 0
    GetProcAddress := fun _ _ => 0
    GetModuleInformation := fun _ => none
    aligned_malloc := fun n _ => 0x100000 * (n + 1)
    uc := fun _ => 0
    is_relative := fun _ => true
    wrapperIndexAt := fun _ => none
    native := fun _ _ m => m }

/-- State of a loader right after construction in `emptyWorld`, with
zeroed memory and registers. -/
def emptyState : State :=
  { LIs := [], KernelAddr := 0x100000, mem := fun _ => 0, regs := fun _ => 0, stopped := false,
    nalloc := 1, errors := [], events := [] }

/-- An environment whose only file `lib.dll` is a PE file that the host
loader fails to load. -/
def hostFailureWorld : World :=
  { emptyWorld with
    isFileValid := fun BP => BP.Path == "lib.dll"
    is_pe := fun p => p == "lib.dll" }

/-- An environment whose only file `lib.dll` is a PE file that the host
loader loads as module 7, without the `_mh_dylib_header` symbol, and for
which the module information cannot be read. -/
def moduleInfoFailureWorld : World :=
  { hostFailureWorld with LoadPackagedLibrary := fun p => if p == "lib.dll" then 7 else 0 }

/-- A Mach-O binary with one readable page at address 0 holding the words
0, 0x1000 and 0x2000. -/
def onePageBinary : Binary :=
  { emptyBinary with
    segments := [{ virtual_address := 0, virtual_size := 0x1000, init_protection := 1,
                   content := [0, 0, 0, 0, 0, 0x10, 0, 0, 0, 0x20, 0, 0], relocations := [] }] }

/-- An environment whose only file `app` is the Mach-O `onePageBinary`. -/
def machoWorld : World :=
  { emptyWorld with
    isFileValid := fun BP => BP.Path == "app"
    is_macho := fun p => p == "app"
    parse := fun _ => onePageBinary }

/-- A Mach-O binary with one readable page at address 0 holding the words
0, 0x1000, 0 and 0xFFFFF000, with relocations at offsets 4, 6 and 12. -/
def overlappingRelocBinary : Binary :=
  { emptyBinary with
    segments := [{ virtual_address := 0, virtual_size := 0x1000, init_protection := 1,
                   content := [0, 0, 0, 0, 0, 0x10, 0, 0, 0, 0, 0, 0, 0, 0xF0, 0xFF, 0xFF],
                   relocations := [⟨false, true, 32, 4⟩, ⟨false, true, 32, 6⟩,
                                   ⟨false, true, 32, 12⟩] }] }

/-- An environment whose only file `app` is the Mach-O
`overlappingRelocBinary`; it is loaded with slide `0x200000`. -/
def overlappingRelocWorld : World :=
  { machoWorld with parse := fun _ => overlappingRelocBinary }

/-- A state in which the wrapper DLL `gen\liba.wrapper.dll` is registered
at `[0x5000, 0x6000)`, guest R0 holds `0x77` and guest LR holds `0x4000`. -/
def wrapperState : State :=
  { emptyState with
    LIs := [("gen\\liba.wrapper.dll", ⟨0x5000, 0x1000, true, .dll 3⟩)]
    regs := fun r => if r = UC_ARM_REG_R0 then 0x77 else if r = UC_ARM_REG_LR then 0x4000 else 0 }

/-- The wrapper dylib of the dispatch scenario: one readable and executable
page and the trampoline symbol for RVA `0x2345` at offset `0x100`. -/
def wrapperDylibBinary : Binary :=
  { emptyBinary with
    segments := [{ virtual_address := 0, virtual_size := 0x1000, init_protection := 5,
                   content := [], relocations := [] }]
    symbols := [("$__ipaSim_wraps_9029", 0x100)] }

/-- The environment of the dispatch scenario: the wrapper DLL
`gen\liba.wrapper.dll` loads as module 2 at `[0x30000, 0x31000)` and
exports its index at `0x30010`; the index maps RVA `0x2345` to the Mach-O
`liba_wrapper.dylib`. -/
def dispatchWorld : World :=
  { emptyWorld with
    isFileValid := fun BP => BP.Path == "gen\\liba.wrapper.dll" || BP.Path == "liba_wrapper.dylib"
    is_macho := fun p => p == "liba_wrapper.dylib"
    is_pe := fun p => p == "gen\\liba.wrapper.dll"
    parse := fun _ => wrapperDylibBinary
    LoadPackagedLibrary := fun p => if p == "gen\\liba.wrapper.dll" then 2 else 0
    GetProcAddress := fun h n => if h = 2 ∧ n = "?Idx@@3UWrapperIndex@@A" then 0x30010 else 0
    GetModuleInformation := fun h => if h = 2 then some (0x30000, 0x1000) else none
    wrapperIndexAt := fun a =>
      if a = 0x30010 then some ⟨[(0x2345, 0)], ["liba_wrapper.dylib"]⟩ else none }

/-- The state of the dispatch scenario: the native image `liba.dll` is
registered at `[0x10000, 0x12000)`, guest R0 holds `0x77` and guest LR
holds `0x4000`. -/
def dispatchState : State :=
  { emptyState with
    LIs := [("liba.dll", ⟨0x10000, 0x2000, false, .dll 1⟩)]
    regs := fun r => if r = UC_ARM_REG_R0 then 0x77 else if r = UC_ARM_REG_LR then 0x4000 else 0 }

/-- A Mach-O binary whose only segment is one readable page at virtual
address `0x4000`. -/
def highSegmentBinary : Binary :=
  { emptyBinary with
    segments := [{ virtual_address := 0x4000, virtual_size := 0x1000, init_protection := 1,
                   content := [1, 2, 3, 4], relocations := [] }] }

/-- An environment whose only file `app` is the Mach-O `highSegmentBinary`;
its segments are allocated at `0x200000`. -/
def highSegmentWorld : World :=
  { machoWorld with parse := fun _ => highSegmentBinary }

/-- An environment without files whose host module 1 exports `foo` at
`0x12345678`. -/
def bindWorld : World :=
  { emptyWorld with
    GetProcAddress := fun h n => if h = 1 ∧ n = "foo" then 0x12345678 else 0 }

/-- A state in which the Mach-O image `app` is registered with slide
`0x200000` and size `0x1000`, and the native `lib.dll` (module 1) at
`[0x10000, 0x11000)`. -/
def bindState : State :=
  { emptyState with
    LIs := [("app", ⟨0x200000, 0x1000, false, .dylib emptyBinary⟩),
            ("lib.dll", ⟨0x10000, 0x1000, false, .dll 1⟩)] }

/-- A supported binding record of symbol `foo` of library `lib` at
`address`. -/
def fooBinding (lib : String) (address : Nat) : BindingInfo :=
  { binding_class := .BIND_CLASS_STANDARD, binding_type := .BIND_TYPE_POINTER, addend := 0,
    has_library := true, libraryName := lib, symbolName := "foo", address := address }

/-- A Mach-O binary that defines `_bar` at `0x40` and re-exports
`libb.dll`. -/
def reexportBinary : Binary :=
  { emptyBinary with
    libraries := [⟨.LC_LOAD_DYLIB, "libc.dll"⟩, ⟨.LC_REEXPORT_DYLIB, "libb.dll"⟩]
    symbols := [("_bar", 0x40)] }

/-- A state in which the Mach-O image `liba.dylib` with binary
`reexportBinary` and the native `libb.dll` (module 1) are registered. -/
def reexportState : State :=
  { emptyState with
    LIs := [("liba.dylib", ⟨0x200000, 0x1000, false, .dylib reexportBinary⟩),
            ("libb.dll", ⟨0x10000, 0x1000, false, .dll 1⟩)] }

/-- A Mach-O binary whose only segment is one readable page at virtual
address `0x100000`. -/
def shiftedBinary : Binary :=
  { emptyBinary with
    segments := [{ virtual_address := 0x100000, virtual_size := 0x1000, init_protection := 1,
                   content := [], relocations := [] }] }

/-- An environment with two Mach-O files: `a` is `onePageBinary` and `b` is
`shiftedBinary`. Loaded in this order, the page of `a` is allocated at
`0x200000` and the page of `b` at `0x300000`. -/
def shiftedPairWorld : World :=
  { emptyWorld with
    isFileValid := fun BP => BP.Path == "a" || BP.Path == "b"
    is_macho := fun p => p == "a" || p == "b"
    parse := fun p => if p == "a" then onePageBinary else shiftedBinary }

/-- A Mach-O binary whose only segment has no permissions, virtual address
`0x400000` and size `0x300000`. -/
def wrappingBinary : Binary :=
  { emptyBinary with
    segments := [{ virtual_address := 0x400000, virtual_size := 0x300000, init_protection := 0,
                   content := [], relocations := [] }] }

/-- An environment whose only file `app` is the Mach-O `wrappingBinary`;
its segments are allocated at `0x200000`, below their virtual address. -/
def wrappingWorld : World :=
  { machoWorld with parse := fun _ => wrappingBinary }

/-- An environment whose only file is the Mach-O `gen\a.dylib` (the guest
path `/a.dylib`), with binary `onePageBinary`. -/
def shortPathWorld : World :=
  { emptyWorld with
    isFileValid := fun BP => BP.Path == "gen\\a.dylib"
    is_macho := fun p => p == "gen\\a.dylib"
    parse := fun _ => onePageBinary }

/-- A segment with the page range `[0x1000, 0x2000)`. -/
def innerSegment : SegmentCommand :=
  { virtual_address := 0x1000, virtual_size := 0x1000, init_protection := 1, content := [],
    relocations := [] }

/-- A segment with the page range `[0, 0x3000)`, which encloses the range
of `innerSegment`. -/
def outerSegment : SegmentCommand :=
  { virtual_address := 0, virtual_size := 0x3000, init_protection := 1, content := [],
    relocations := [] }

/-- An environment whose only file `app` is a Mach-O with the segments
`innerSegment` and `outerSegment`, in this order. -/
def enclosingWorld : World :=
  { machoWorld with
    parse := fun _ => { emptyBinary with segments := [innerSegment, outerSegment] } }

/-- An environment with two files: `app` is the given Mach-O, and `lib.dll`
is a PE file that the host loads as module 1 at `[0x10000, 0x11000)` and
that exports `foo` at `0x12345678`. The segments of `app`, loaded first, are
allocated at `0x200000`. -/
def appWorld (Bin : Binary) : World :=
  { emptyWorld with
    isFileValid := fun BP => BP.Path == "app" || BP.Path == "lib.dll"
    is_macho := fun p => p == "app"
    is_pe := fun p => p == "lib.dll"
    parse := fun _ => Bin
    LoadPackagedLibrary := fun p => if p == "lib.dll" then 1 else 0
    GetProcAddress := fun h n => if h = 1 ∧ n = "foo" then 0x12345678 else 0
    GetModuleInformation := fun h => if h = 1 then some (0x10000, 0x1000) else none }

/-- A Mach-O binary with two pages: the first holds the word `0x1000` at
offset 0, and each of the two segments records a relocation at offset 0. -/
def twiceRelocBinary : Binary :=
  { emptyBinary with
    segments := [{ virtual_address := 0, virtual_size := 0x1000, init_protection := 1,
                   content := [0, 0x10, 0, 0], relocations := [⟨false, true, 32, 0⟩] },
                 { virtual_address := 0x1000, virtual_size := 0x1000, init_protection := 1,
                   content := [], relocations := [⟨false, true, 32, 0⟩] }] }

/-- A Mach-O binary with two pages: the first segment records a relocation
at offset `0x1004`, which lies in the second segment, whose content holds
the word `0x3000` there. -/
def crossSegmentBinary : Binary :=
  { emptyBinary with
    segments := [{ virtual_address := 0, virtual_size := 0x1000, init_protection := 1,
                   content := [], relocations := [⟨false, true, 32, 0x1004⟩] },
                 { virtual_address := 0x1000, virtual_size := 0x1000, init_protection := 1,
                   content := [0, 0, 0, 0, 0, 0x30, 0, 0], relocations := [] }] }

/-- A Mach-O binary with one page that holds the word `0x1000` at offset
4, a relocation at offset 4, and a binding of `foo` of `lib.dll` at the
same address. -/
def boundSiteBinary : Binary :=
  { emptyBinary with
    segments := [{ virtual_address := 0, virtual_size := 0x1000, init_protection := 3,
                   content := [0, 0, 0, 0, 0, 0x10, 0, 0], relocations := [⟨false, true, 32, 4⟩] }]
    libraries := [⟨.LC_LOAD_DYLIB, "lib.dll"⟩]
    bindings := [fooBinding "lib.dll" 4] }

/-- First segment of `rebasedBinary`: a readable page with the words 0,
`0x1000` and `0x2000` and relocations at offsets 0, 4 and 8. -/
def textSegment : SegmentCommand :=
  { virtual_address := 0, virtual_size := 0x1000, init_protection := 1,
    content := [0, 0, 0, 0, 0, 0x10, 0, 0, 0, 0x20, 0, 0],
    relocations := [⟨false, true, 32, 0⟩, ⟨false, true, 32, 4⟩, ⟨false, true, 32, 8⟩] }

/-- Second segment of `rebasedBinary`: a writable page at `0x1000` with the
word `0x1010` and a relocation at its first word. -/
def dataSegment : SegmentCommand :=
  { virtual_address := 0x1000, virtual_size := 0x1000, init_protection := 3,
    content := [0x10, 0x10, 0, 0], relocations := [⟨false, true, 32, 0x1000⟩] }

/-- A Mach-O binary with the segments `textSegment` and `dataSegment`, the
library `lib.dll`, and a binding of `foo` of `lib.dll` at `0x1008`. -/
def rebasedBinary : Binary :=
  { emptyBinary with
    segments := [textSegment, dataSegment]
    libraries := [⟨.LC_LOAD_DYLIB, "lib.dll"⟩]
    bindings := [fooBinding "lib.dll" 0x1008] }

end IpaSim

/-! # Theorems -/

namespace IpaSim

/-! ## Reverse lookup -/

theorem u64_le (x : Nat) : u64 x ≤ x := Nat.mod_le _ _

theorem u64_of_lt {x : Nat} (h : x < 2 ^ 64) : u64 x = x := Nat.mod_eq_of_lt h

theorem isInRange_sound {l : LoadedLibrary} {a : Nat} (h : l.isInRange a = true) :
    l.StartAddress ≤ a ∧ a < l.StartAddress + l.Size := by
  simp only [LoadedLibrary.isInRange, Bool.and_eq_true, decide_eq_true_eq] at h
  exact ⟨h.1, lt_of_lt_of_le h.2 (u64_le _)⟩

theorem isInRange_complete {l : LoadedLibrary} {a : Nat} (h1 : l.StartAddress ≤ a)
    (h2 : a < l.StartAddress + l.Size) (h3 : l.StartAddress + l.Size < 2 ^ 64) :
    l.isInRange a = true := by
  simp only [LoadedLibrary.isInRange, Bool.and_eq_true, decide_eq_true_eq]
  exact ⟨h1, by rw [u64_of_lt h3]; exact h2⟩

theorem lookup_skip (pre : Registry) (rest : Registry) (a : Nat)
    (h : ∀ e ∈ pre, e.2.isInRange a = false) : lookup (pre ++ rest) a = lookup rest a := by
  induction pre with
  | nil => rfl
  | cons e pre ih =>
    obtain ⟨k, v⟩ := e
    have hv : v.isInRange a = false := h (k, v) (List.mem_cons_self _ _)
    simp only [List.cons_append, lookup, hv, Bool.false_eq_true, if_false]
    exact ih fun e he => h e (List.mem_cons_of_mem _ he)

theorem find_skip (pre : Registry) (rest : Registry) (k : String)
    (h : ∀ e ∈ pre, e.1 ≠ k) : Registry.find (pre ++ rest) k = Registry.find rest k := by
  induction pre with
  | nil => rfl
  | cons e pre ih =>
    obtain ⟨k1, v⟩ := e
    have hk : k1 ≠ k := h (k1, v) (List.mem_cons_self _ _)
    simp only [List.cons_append, Registry.find, hk, if_false]
    exact ih fun e he => h e (List.mem_cons_of_mem _ he)

/-- C1, as stated, fails. After `load("a")` and `load("b")` in
`shiftedPairWorld` both images are registered with the range
`[0x200000, 0x201000)` (the pages are mapped apart, at `0x200000` and
`0x300000`), and `lookup(0x200800)` returns the first in key order, `a`,
not `b`. After `load("app")` in `wrappingWorld` the record has start
`2 ^ 64 - 0x200000` and size `0x300000`; the address `2 ^ 64 - 1` satisfies
`start <= addr < start + size`, but the 64-bit sum wraps and `lookup`
returns the null `AddrInfo`. -/
theorem lookup_overlap_counterexample :
    (let LIs := (load shiftedPairWorld 1 "b" (load shiftedPairWorld 1 "a" emptyState).state).state.LIs
     Registry.find LIs "b" = some ⟨0x200000, 0x1000, false, .dylib shiftedBinary⟩
       ∧ 0x200000 ≤ 0x200800 ∧ 0x200800 < 0x200000 + 0x1000
       ∧ lookup LIs 0x200800 = ⟨some "a", some "a", ""⟩)
    ∧ (let LIs := (load wrappingWorld 1 "app" emptyState).state.LIs
       Registry.find LIs "app" = some ⟨2 ^ 64 - 0x200000, 0x300000, false, .dylib wrappingBinary⟩
         ∧ 2 ^ 64 - 0x200000 ≤ 2 ^ 64 - 1 ∧ 2 ^ 64 - 1 < 2 ^ 64 - 0x200000 + 0x300000
         ∧ lookup LIs (2 ^ 64 - 1) = ⟨none, none, ""⟩) := by
  decide

/-- C1 (amended): `lookup` returns the key and record of the first image
in key order whose range contains the address, so it returns image `I` for
every address of `[I.start, I.start + I.size)` when that sum fits 64 bits
and no image before `I` contains the address; it returns the null
`AddrInfo` for an address in no image's range. -/
theorem lookup_first_match (LIs : Registry) (Addr : Nat) :
    (∀ (pre post : Registry) (k : String) (I : LoadedLibrary),
        LIs = pre ++ (k, I) :: post →
        (∀ e ∈ pre, e.2.isInRange Addr = false ∧ e.1 ≠ k) →
        I.StartAddress ≤ Addr → Addr < I.StartAddress + I.Size →
        I.StartAddress + I.Size < 2 ^ 64 →
        lookup LIs Addr = ⟨some k, some k, ""⟩ ∧ Registry.find LIs k = some I)
    ∧ ((∀ e ∈ LIs, ¬ (e.2.StartAddress ≤ Addr ∧ Addr < e.2.StartAddress + e.2.Size)) →
        lookup LIs Addr = ⟨none, none, ""⟩) := by
  constructor
  · intro pre post k I hL hpre h1 h2 h3
    subst hL
    rw [lookup_skip pre _ Addr fun e he => (hpre e he).1,
      find_skip pre _ k fun e he => (hpre e he).2]
    simp [lookup, Registry.find, isInRange_complete h1 h2 h3]
  · intro h
    induction LIs with
    | nil => rfl
    | cons e rest ih =>
      obtain ⟨k, v⟩ := e
      have hv : v.isInRange Addr = false := by
        cases hr : v.isInRange Addr with
        | false => rfl
        | true => exact absurd (isInRange_sound hr) (h (k, v) (List.mem_cons_self _ _))
      simp only [lookup, hv, Bool.false_eq_true, if_false]
      exact ih fun e he => h e (List.mem_cons_of_mem _ he)

/-- Instance of `lookup_first_match`: two disjoint images, an address of
the second one, and an address of neither. -/
theorem lookup_first_match_witness :
    (lookup [("a.dll", ⟨0x1000, 0x1000, false, .dll 1⟩), ("b.dll", ⟨0x2000, 0x1000, false, .dll 2⟩)]
        0x2800 = ⟨some "b.dll", some "b.dll", ""⟩
      ∧ Registry.find [("a.dll", ⟨0x1000, 0x1000, false, .dll 1⟩),
          ("b.dll", ⟨0x2000, 0x1000, false, .dll 2⟩)] "b.dll"
          = some ⟨0x2000, 0x1000, false, .dll 2⟩)
    ∧ lookup [("a.dll", ⟨0x1000, 0x1000, false, .dll 1⟩)] 0x2800 = ⟨none, none, ""⟩ :=
  ⟨(lookup_first_match _ 0x2800).1 [("a.dll", ⟨0x1000, 0x1000, false, .dll 1⟩)] [] "b.dll"
      ⟨0x2000, 0x1000, false, .dll 2⟩ rfl (by decide) (by decide) (by decide) (by decide),
   (lookup_first_match [("a.dll", ⟨0x1000, 0x1000, false, .dll 1⟩)] 0x2800).2 (by decide)⟩


/-! ## Registry facts -/

theorem find_assign (m : Registry) (k k1 : String) (v : LoadedLibrary) :
    Registry.find (Registry.assign m k v) k1 = if k = k1 then some v else Registry.find m k1 := by
  induction m with
  | nil => simp [Registry.assign, Registry.find]
  | cons e rest ih =>
    obtain ⟨k0, v0⟩ := e
    simp only [Registry.assign]
    split_ifs with h0 hl h1 h1 h1
    all_goals simp only [Registry.find, ih]
    all_goals split_ifs <;> simp_all

theorem find_modify (m : Registry) (k k1 : String) (f : LoadedLibrary → LoadedLibrary) :
    Registry.find (Registry.modify m k f) k1
      = if k = k1 then (Registry.find m k1).map f else Registry.find m k1 := by
  induction m with
  | nil => simp [Registry.modify, Registry.find]
  | cons e rest ih =>
    obtain ⟨k0, v0⟩ := e
    simp only [Registry.modify]
    split_ifs with h0 h1 h1
    all_goals simp only [Registry.find, ih]
    all_goals split_ifs <;> simp_all

theorem erase_assign (m : Registry) (k : String) (v : LoadedLibrary)
    (h : Registry.find m k = none) : Registry.erase (Registry.assign m k v) k = m := by
  induction m with
  | nil => simp [Registry.assign, Registry.erase]
  | cons e rest ih =>
    obtain ⟨k0, v0⟩ := e
    have h0 : k0 ≠ k := by
      intro h0
      simp [Registry.find, h0] at h
    have hr : Registry.find rest k = none := by
      simpa [Registry.find, h0] using h
    unfold Registry.assign
    by_cases hl : strLess k.data k0.data = true
    · simp [h0, hl, Registry.erase]
    · simp [h0, hl, Registry.erase, ih hr]

theorem KeysLe.refl (m : Registry) : KeysLe m m := fun _ h => h

theorem KeysLe.trans {a b c : Registry} (h1 : KeysLe a b) (h2 : KeysLe b c) : KeysLe a c :=
  fun k h => h2 k (h1 k h)

theorem keysLe_assign (m : Registry) (k : String) (v : LoadedLibrary) :
    KeysLe m (Registry.assign m k v) := by
  intro k1 h
  rw [find_assign]
  by_cases hk : k = k1 <;> simp [hk, h]

theorem keysLe_modify (m : Registry) (k : String) (f : LoadedLibrary → LoadedLibrary) :
    KeysLe m (Registry.modify m k f) := by
  intro k1 h
  rw [find_modify]
  by_cases hk : k = k1
  · simp only [hk, if_true]
    cases hf : Registry.find m k1 with
    | none => exact absurd hf h
    | some v => simp
  · simpa [hk] using h


/-! ## Registered keys are kept by every operation that returns -/

theorem bind_eq_ok {α β : Type} {o : Outcome α} {f : α → State → Outcome β} {r : β}
    {s1 : State} (h : o.bind f = .ok r s1) : ∃ v s0, o = .ok v s0 ∧ f v s0 = .ok r s1 := by
  cases o with
  | ok v s0 => exact ⟨v, s0, rfl, h⟩
  | crash c s0 => simp [Outcome.bind] at h

theorem callUC_LIs {w : World} {c : UcCall} {s s1 : State} {u : Unit}
    (h : callUC w c s = .ok u s1) : s1.LIs = s.LIs := by
  unfold callUC at h
  split_ifs at h
  cases h
  rfl

theorem relocate_LIs (LowAddr Slide VAddr VSize : Nat) (s : State) (Rel : Relocation) :
    (relocate LowAddr Slide VAddr VSize s Rel).LIs = s.LIs := by
  unfold relocate
  simp only [error]
  split_ifs <;> rfl

theorem relocateSegment_LIs (LowAddr Slide VAddr VSize : Nat) (rels : List Relocation)
    (s : State) : (relocateSegment LowAddr Slide VAddr VSize rels s).LIs = s.LIs := by
  unfold relocateSegment
  induction rels generalizing s with
  | nil => rfl
  | cons r rest ih => rw [List.foldl_cons, ih, relocate_LIs]

theorem loadSegment_LIs {w : World} {LowAddr Slide : Nat} {Seg : SegmentCommand}
    {s s1 : State} {u : Unit} (h : loadSegment w LowAddr Slide Seg s = .ok u s1) :
    s1.LIs = s.LIs := by
  unfold loadSegment at h
  obtain ⟨_, s0, h0, h1⟩ := bind_eq_ok h
  have e0 : s0.LIs = s.LIs := by
    by_cases hp : toPerms Seg.init_protection = UC_PROT_NONE
    · rw [if_pos hp] at h0
      exact callUC_LIs h0
    · rw [if_neg hp] at h0
      obtain ⟨_, s2, h2, h3⟩ := bind_eq_ok h0
      have e2 : s2.LIs = s.LIs := (callUC_LIs h2).trans rfl
      split_ifs at h3 <;> cases h3 <;> exact e2
  cases h1
  unfold rebaseSegment
  split_ifs
  · rw [relocateSegment_LIs, e0]
  · exact e0

theorem loadSegments_LIs {w : World} {LowAddr Slide : Nat} (segs : List SegmentCommand)
    {s s1 : State} {u : Unit} (h : loadSegments w LowAddr Slide segs s = .ok u s1) :
    s1.LIs = s.LIs := by
  induction segs generalizing s with
  | nil => cases h; rfl
  | cons Seg rest ih =>
    obtain ⟨_, s0, h0, h1⟩ := bind_eq_ok h
    rw [ih h1, loadSegment_LIs h0]

theorem sizeSegment_LIs (w : World) (acc : Bounds × State) (Seg : SegmentCommand) :
    (sizeSegment w acc Seg).2.LIs = acc.2.LIs := by
  unfold sizeSegment
  simp only [error]
  split_ifs <;> rfl

theorem foldl_sizeSegment_LIs (w : World) (segs : List SegmentCommand) (acc : Bounds × State) :
    (segs.foldl (sizeSegment w) acc).2.LIs = acc.2.LIs := by
  induction segs generalizing acc with
  | nil => rfl
  | cons Seg rest ih => rw [List.foldl_cons, ih, sizeSegment_LIs]

theorem sizeSegments_LIs (w : World) (segs : List SegmentCommand) (s : State) :
    (sizeSegments w segs s).2.LIs = s.LIs :=
  foldl_sizeSegment_LIs w segs _

theorem checkHeader_LIs (Bin : Binary) (s : State) : (checkHeader Bin s).LIs = s.LIs := by
  unfold checkHeader
  simp only [error]
  split_ifs <;> rfl

theorem loadLibraries_mono {ld : LoadFn} (hl : LoadMono ld) (libs : List DylibCommand)
    {s s1 : State} {u : Unit} (h : loadLibraries ld libs s = .ok u s1) :
    KeysLe s.LIs s1.LIs := by
  induction libs generalizing s with
  | nil => cases h; exact KeysLe.refl _
  | cons Lib rest ih =>
    obtain ⟨_, s0, h0, h1⟩ := bind_eq_ok h
    exact (hl _ _ _ _ h0).trans (ih h1)

theorem reexportLoop_mono {ld : LoadFn} {fs : FindFn} (hl : LoadMono ld) (hf : FindMono fs)
    (Name : String) (libs : List DylibCommand) {s s1 : State} {r : Nat}
    (h : reexportLoop ld fs Name libs s = .ok r s1) : KeysLe s.LIs s1.LIs := by
  induction libs generalizing s with
  | nil => cases h; exact KeysLe.refl _
  | cons Lib rest ih =>
    unfold reexportLoop at h
    split_ifs at h with hc
    · obtain ⟨LL, s0, h0, h1⟩ := bind_eq_ok h
      have m0 := hl _ _ _ _ h0
      cases LL with
      | none => simp at h1
      | some k =>
        simp only at h1
        cases hk : Registry.find s0.LIs k with
        | none => simp [hk] at h1
        | some r0 =>
          simp only [hk] at h1
          obtain ⟨a, s2, h2, h3⟩ := bind_eq_ok h1
          have m2 := hf _ _ _ _ _ h2
          split_ifs at h3
          · cases h3
            exact m0.trans m2
          · exact m0.trans (m2.trans (ih h3))
    · exact ih h

theorem findSymbolStep_mono {w : World} {ld : LoadFn} {fs : FindFn} (hl : LoadMono ld)
    (hf : FindMono fs) : FindMono (findSymbolStep w ld fs) := by
  intro L N s r s1 h
  unfold findSymbolStep at h
  cases hk : Registry.find s.LIs L with
  | none => simp [hk] at h
  | some r0 =>
    simp only [hk] at h
    cases hkind : r0.kind with
    | dll Ptr =>
      simp only [hkind] at h
      cases h
      exact KeysLe.refl _
    | dylib Bin =>
      simp only [hkind, LoadedDylib.findSymbol] at h
      split_ifs at h
      · exact reexportLoop_mono hl hf _ _ h
      · cases h
        exact KeysLe.refl _

theorem bindSymbol_mono {ld : LoadFn} {fs : FindFn} (hl : LoadMono ld) (hf : FindMono fs)
    {LLP : String} {Slide : Nat} {BInfo : BindingInfo} {s s1 : State} {u : Unit}
    (h : bindSymbol ld fs LLP Slide BInfo s = .ok u s1) : KeysLe s.LIs s1.LIs := by
  unfold bindSymbol at h
  split_ifs at h with h1 h2
  · cases h; exact KeysLe.refl _
  · cases h; exact KeysLe.refl _
  · obtain ⟨Lib, s0, h0, h3⟩ := bind_eq_ok h
    have m0 := hl _ _ _ _ h0
    cases Lib with
    | none => simp only at h3; cases h3; exact m0
    | some L =>
      simp only at h3
      obtain ⟨a, s2, h4, h5⟩ := bind_eq_ok h3
      have m2 := hf _ _ _ _ _ h4
      split_ifs at h5 with ha
      · cases h5; exact m0.trans m2
      · cases hk : Registry.find s2.LIs LLP with
        | none => simp [hk] at h5
        | some r0 =>
          simp only [hk] at h5
          split_ifs at h5
          cases h5
          exact m0.trans m2

theorem bindSymbols_mono {ld : LoadFn} {fs : FindFn} (hl : LoadMono ld) (hf : FindMono fs)
    {LLP : String} {Slide : Nat} (bs : List BindingInfo) {s s1 : State} {u : Unit}
    (h : bindSymbols ld fs LLP Slide bs s = .ok u s1) : KeysLe s.LIs s1.LIs := by
  induction bs generalizing s with
  | nil => cases h; exact KeysLe.refl _
  | cons b rest ih =>
    obtain ⟨_, s0, h0, h1⟩ := bind_eq_ok h
    exact (bindSymbol_mono hl hf h0).trans (ih h1)


theorem loadMachO_ok {w : World} {ld : LoadFn} {fs : FindFn} (hl : LoadMono ld)
    (hf : FindMono fs) {Path : String} {s s1 : State} {r : LibPtr}
    (h : loadMachO w ld fs Path s = .ok r s1) :
    r = some Path ∧ Registry.find s1.LIs Path ≠ none ∧ KeysLe s.LIs s1.LIs := by
  unfold loadMachO at h
  obtain ⟨_, s6, h6, h⟩ := bind_eq_ok h
  obtain ⟨_, s7, h7, h⟩ := bind_eq_ok h
  obtain ⟨_, s8, h8, h⟩ := bind_eq_ok h
  cases h
  have e6 := loadSegments_LIs _ h6
  have m7 := loadLibraries_mono hl _ h7
  have m8 := bindSymbols_mono hl hf _ h8
  have m5 : KeysLe s.LIs s6.LIs := by
    rw [e6]
    refine KeysLe.trans ?_ (keysLe_modify _ _ _)
    have e : ∀ (t : State) (b : Bool) (msg : String), (if b then error t msg else t).LIs = t.LIs := by
      intro t b msg
      cases b <;> rfl
    simp only [decide_eq_true_eq] at e
    split_ifs
    all_goals simp only [error, sizeSegments_LIs, checkHeader_LIs]
    all_goals exact keysLe_assign _ _ _
  have k5 : Registry.find s6.LIs Path ≠ none := by
    rw [e6]
    apply keysLe_modify
    split_ifs
    all_goals simp only [error, sizeSegments_LIs, checkHeader_LIs, find_assign]
    all_goals simp
  exact ⟨rfl, m8 _ (m7 _ k5), m5.trans (m7.trans m8)⟩

theorem loadPE_ok {w : World} {Path : String} {s s1 : State} {k : String}
    (h : loadPE w Path s = .ok (some k) s1) :
    k = Path ∧ Registry.find s1.LIs Path ≠ none ∧ KeysLe s.LIs s1.LIs := by
  unfold loadPE at h
  simp only at h
  split at h
  · cases h
  · split at h
    · cases h
    · rename_i s3 hloc
      split at h
      · cases h
      · rename_i r0 hk
        obtain ⟨_, s4, h4, h5⟩ := bind_eq_ok h
        have e4 : s4.LIs = s3.LIs := callUC_LIs h4
        cases h5
        have m3 : KeysLe s.LIs s3.LIs := by
          split at hloc
          · cases hloc
            exact (keysLe_assign _ _ _).trans ((keysLe_modify _ _ _).trans (keysLe_modify _ _ _))
          · split at hloc
            · cases hloc
            · cases hloc
              exact (keysLe_assign _ _ _).trans ((keysLe_modify _ _ _).trans (keysLe_modify _ _ _))
        refine ⟨rfl, ?_, ?_⟩
        · rw [e4, hk]; simp
        · rw [e4]; exact m3


theorem setWrapperFlag_ok {BP : BinaryPath} {L r : LibPtr} {s s1 : State}
    (h : setWrapperFlag BP L s = .ok r s1) :
    r = L ∧ L ≠ none ∧ KeysLe s.LIs s1.LIs := by
  unfold setWrapperFlag at h
  split at h
  · cases h
  · split at h
    · cases h
    · cases h
      exact ⟨rfl, by simp, keysLe_modify _ _ _⟩

/-- What a returning `load` step guarantees: a non-null result is the
resolved path and is registered; a null result comes from one of the two
reporting exits and only adds the report. -/
theorem loadStep_ok {w : World} {ld : LoadFn} {fs : FindFn} (hl : LoadMono ld)
    (hf : FindMono fs) {Path : String} {s s1 : State} {r : LibPtr}
    (h : loadStep w ld fs Path s = .ok r s1) :
    KeysLe s.LIs s1.LIs ∧
    (∀ k, r = some k → k = (resolvePath w Path).Path ∧ Registry.find s1.LIs k ≠ none) ∧
    (r = none → Registry.find s.LIs (resolvePath w Path).Path = none ∧
      ∃ msg, s1 = error s msg ∧ ∀ ld1 fs1 t, t.LIs = s.LIs →
        loadStep w ld1 fs1 Path t = .ok none (error t msg)) := by
  unfold loadStep at h
  simp only at h
  split at h
  · rename_i v hv
    cases h
    exact ⟨KeysLe.refl _, fun k hk => (by cases hk; exact ⟨rfl, by simp [hv]⟩), fun h => (by cases h)⟩
  · rename_i hv
    split_ifs at h with h1 h2 h3
    · cases h
      refine ⟨KeysLe.refl _, fun k hk => (by cases hk), fun _ => ⟨hv, _, rfl, ?_⟩⟩
      intro ld1 fs1 t ht
      unfold loadStep
      simp only [ht, hv, h1, if_true]
    · obtain ⟨L, s0, h4, h5⟩ := bind_eq_ok h
      obtain ⟨e1, e2, e3⟩ := loadMachO_ok hl hf h4
      obtain ⟨e4, _, e6⟩ := setWrapperFlag_ok h5
      subst e4 e1
      refine ⟨e3.trans e6, fun k hk => ?_, fun h => (by cases h)⟩
      cases hk
      exact ⟨rfl, e6 _ e2⟩
    · obtain ⟨L, s0, h4, h5⟩ := bind_eq_ok h
      obtain ⟨e4, e5, e6⟩ := setWrapperFlag_ok h5
      cases L with
      | none => exact absurd rfl e5
      | some k0 =>
        obtain ⟨e1, e2, e3⟩ := loadPE_ok h4
        subst e4 e1
        refine ⟨e3.trans e6, fun k hk => ?_, fun h => (by cases h)⟩
        cases hk
        exact ⟨rfl, e6 _ e2⟩
    · cases h
      refine ⟨KeysLe.refl _, fun k hk => (by cases hk), fun _ => ⟨hv, _, rfl, ?_⟩⟩
      intro ld1 fs1 t ht
      unfold loadStep
      simp only [ht, hv, h1, h2, h3]
      simp

theorem loaderFns_mono (w : World) (n : Nat) :
    LoadMono (loaderFns w n).1 ∧ FindMono (loaderFns w n).2 := by
  induction n with
  | zero =>
    constructor
    · intro p s r s1 h
      simp [loaderFns] at h
    · intro L N s r s1 h
      simp [loaderFns] at h
  | succ n ih =>
    constructor
    · intro p s r s1 h
      exact (loadStep_ok ih.1 ih.2 h).1
    · exact findSymbolStep_mono ih.1 ih.2

theorem load_mono (w : World) (n : Nat) : LoadMono (load w n) := (loaderFns_mono w n).1

theorem findSymbol_mono (w : World) (n : Nat) : FindMono (findSymbol w n) :=
  (loaderFns_mono w n).2

theorem load_succ (w : World) (n : Nat) :
    load w (n + 1) = loadStep w (load w n) (findSymbol w n) := rfl

theorem findSymbol_succ (w : World) (n : Nat) :
    findSymbol w (n + 1) = findSymbolStep w (load w n) (findSymbol w n) := rfl

/-- A registered path is returned by `load` at once, with the state
untouched. -/
theorem load_registered (w : World) (n : Nat) (Path : String) (s : State)
    (h : Registry.find s.LIs (resolvePath w Path).Path ≠ none) :
    load w (n + 1) Path s = .ok (some (resolvePath w Path).Path) s := by
  rw [load_succ]
  unfold loadStep
  cases hv : Registry.find s.LIs (resolvePath w Path).Path with
  | none => exact absurd hv h
  | some v => simp only [hv]


/-! ## Loading twice -/

/-- C2, as stated, fails at the failure exits of the native branch. When
the module information of `lib.dll` cannot be read, the first `load`
returns no record: it stores through the null result of `loadPE`, with the
stub still registered. When the host loader fails, `loadPE` erases the stub
and returns null, so nothing remembers the attempt and a second attempt
calls the host loader again. -/
theorem load_twice_counterexample :
    ((load moduleInfoFailureWorld 1 "lib.dll" emptyState).value? = none
      ∧ (load moduleInfoFailureWorld 1 "lib.dll" emptyState).crashed? = some .nullDeref
      ∧ Registry.find (load moduleInfoFailureWorld 1 "lib.dll" emptyState).state.LIs "lib.dll"
          = some ⟨0, 0, false, .dll 7⟩)
    ∧ ((loadPE hostFailureWorld "lib.dll" emptyState).value? = some none
      ∧ (loadPE hostFailureWorld "lib.dll" emptyState).state.LIs = []
      ∧ (loadPE hostFailureWorld "lib.dll"
          (loadPE hostFailureWorld "lib.dll" emptyState).state).state.events
          = [.hostLoad "lib.dll", .hostLoad "lib.dll"]) := by
  decide

/-- C2 (amended): whenever `load(p)` returns, a second `load(p)` returns
the same record and leaves the registry, the memory and the trace of
parser, host loader and emulator calls unchanged; after a non-null result
the whole state is unchanged. -/
theorem load_twice (w : World) (n m : Nat) (Path : String) (s s1 : State) (r : LibPtr)
    (h : load w n Path s = .ok r s1) :
    ∃ s2, load w (m + 1) Path s1 = .ok r s2 ∧ s2.LIs = s1.LIs ∧ s2.events = s1.events
      ∧ s2.mem = s1.mem ∧ (r ≠ none → s2 = s1) := by
  cases n with
  | zero => simp [load, loaderFns] at h
  | succ n =>
    rw [load_succ] at h
    obtain ⟨_, hsome, hnone⟩ := loadStep_ok (load_mono w n) (findSymbol_mono w n) h
    cases r with
    | some k =>
      obtain ⟨hk, hreg⟩ := hsome k rfl
      subst hk
      exact ⟨s1, load_registered w m Path s1 hreg, rfl, rfl, rfl, fun _ => rfl⟩
    | none =>
      obtain ⟨_, msg, hs1, hagain⟩ := hnone rfl
      refine ⟨error s1 msg, ?_, rfl, rfl, rfl, fun h => absurd rfl h⟩
      rw [load_succ]
      exact hagain _ _ s1 (by rw [hs1]; rfl)

/-- Instance of `load_twice`: the Mach-O `app` of `machoWorld` loaded
twice. -/
theorem load_twice_witness :
    ∃ s2, load machoWorld 3 "app" (load machoWorld 2 "app" emptyState).state = .ok (some "app") s2
      ∧ s2.LIs = (load machoWorld 2 "app" emptyState).state.LIs
      ∧ s2.events = (load machoWorld 2 "app" emptyState).state.events
      ∧ s2.mem = (load machoWorld 2 "app" emptyState).state.mem
      ∧ (some "app" ≠ none → s2 = (load machoWorld 2 "app" emptyState).state) :=
  load_twice machoWorld 2 2 "app" emptyState _ (some "app") (by rfl)


/-! ## Failure of the host loader -/

/-- C8: when the host loader fails, `loadPE` reports the failure, removes
the stub and returns null, but `load` then stores `IsWrapperDLL` through
that null pointer: the call does not return (it throws instead when the
path makes `endsWith` throw first); the registry at that point equals the
registry before the call. -/
theorem load_host_failure (w : World) (n : Nat) (Path : String) (s : State)
    (hreg : Registry.find s.LIs (resolvePath w Path).Path = none)
    (hvalid : w.isFileValid (resolvePath w Path) = true)
    (hmacho : w.is_macho (resolvePath w Path).Path = false)
    (hpe : w.is_pe (resolvePath w Path).Path = true)
    (hfail : w.LoadPackagedLibrary (resolvePath w Path).Path = 0) :
    (load w (n + 1) Path s).value? = none
      ∧ (load w (n + 1) Path s).crashed?
          = some (if wrapperFlag (resolvePath w Path) = none then .thrown "std::out_of_range"
                  else .nullDeref)
      ∧ (load w (n + 1) Path s).state.LIs = s.LIs
      ∧ (load w (n + 1) Path s).state.errors
          = s.errors ++ ["couldn't load DLL: " ++ (resolvePath w Path).Path] := by
  rw [load_succ]
  unfold loadStep
  simp only [hreg, hvalid, hmacho, hpe, Bool.not_true, Bool.false_eq_true, if_false, if_true]
  unfold loadPE
  simp only [hfail, if_true, Outcome.bind, setWrapperFlag, error]
  cases hw : wrapperFlag (resolvePath w Path) with
  | none => simp [Outcome.value?, Outcome.crashed?, Outcome.state, erase_assign _ _ _ hreg]
  | some b => simp [Outcome.value?, Outcome.crashed?, Outcome.state, erase_assign _ _ _ hreg]

/-- Instance of `load_host_failure`: the PE file `lib.dll` that the host
loader of `hostFailureWorld` fails to load. -/
theorem load_host_failure_witness :
    (load hostFailureWorld 1 "lib.dll" emptyState).value? = none
      ∧ (load hostFailureWorld 1 "lib.dll" emptyState).crashed? = some .nullDeref
      ∧ (load hostFailureWorld 1 "lib.dll" emptyState).state.LIs = []
      ∧ (load hostFailureWorld 1 "lib.dll" emptyState).state.errors
          = ["couldn't load DLL: lib.dll"] :=
  load_host_failure hostFailureWorld 0 "lib.dll" emptyState (by decide) (by decide) (by decide)
    (by decide) (by decide)


/-! ## Pointer rebasing -/

theorem read32_write32_same (m : Memory) (a v : Nat) : read32 (write32 m a v) a = v % 2 ^ 32 := by
  have b0 : write32 m a v a = v % 256 := by simp [write32]
  have b1 : write32 m a v (a + 1) = v / 256 % 256 := by simp [write32]
  have b2 : write32 m a v (a + 2) = v / 65536 % 256 := by simp [write32]
  have b3 : write32 m a v (a + 3) = v / 16777216 % 256 := by simp [write32]
  unfold read32
  rw [b0, b1, b2, b3]
  simp only [Nat.mod_mod]
  omega

theorem read32_write32_apart (m : Memory) (a b v : Nat) (h : WordsApart a b) :
    read32 (write32 m a v) b = read32 m b := by
  unfold WordsApart at h
  unfold read32 write32
  have e0 : b ≠ a := by omega
  have e1 : b ≠ a + 1 := by omega
  have e2 : b ≠ a + 2 := by omega
  have e3 : b ≠ a + 3 := by omega
  have f0 : b + 1 ≠ a := by omega
  have f1 : b + 1 ≠ a + 1 := by omega
  have f2 : b + 1 ≠ a + 2 := by omega
  have f3 : b + 1 ≠ a + 3 := by omega
  have g0 : b + 2 ≠ a := by omega
  have g1 : b + 2 ≠ a + 1 := by omega
  have g2 : b + 2 ≠ a + 2 := by omega
  have g3 : b + 2 ≠ a + 3 := by omega
  have k0 : b + 3 ≠ a := by omega
  have k1 : b + 3 ≠ a + 1 := by omega
  have k2 : b + 3 ≠ a + 2 := by omega
  have k3 : b + 3 ≠ a + 3 := by omega
  simp only [e0, e1, e2, e3, f0, f1, f2, f3, g0, g1, g2, g3, k0, k1, k2, k3, if_false]

/-- Word left at a site by the relocation of that site. -/
theorem relocate_mem (LowAddr Slide VAddr VSize : Nat) (s : State) (Rel : Relocation) :
    (relocate LowAddr Slide VAddr VSize s Rel).mem
      = if read32 s.mem (relocSite LowAddr Slide Rel) ≠ 0 then
          write32 s.mem (relocSite LowAddr Slide Rel)
            (u64 (read32 s.mem (relocSite LowAddr Slide Rel) + Slide))
        else s.mem := by
  unfold relocate
  simp only [error]
  split_ifs <;> rfl

theorem relocate_at (LowAddr Slide VAddr VSize : Nat) (s : State) (Rel : Relocation) :
    read32 (relocate LowAddr Slide VAddr VSize s Rel).mem (relocSite LowAddr Slide Rel)
      = if read32 s.mem (relocSite LowAddr Slide Rel) = 0 then 0
        else u32 (read32 s.mem (relocSite LowAddr Slide Rel) + Slide) := by
  rw [relocate_mem]
  by_cases h : read32 s.mem (relocSite LowAddr Slide Rel) = 0
  · simp [h]
  · simp only [ne_eq, h, not_false_eq_true, if_true, if_false, read32_write32_same, u64, u32]
    exact Nat.mod_mod_of_dvd _ (by norm_num)

theorem relocate_apart (LowAddr Slide VAddr VSize : Nat) (s : State) (Rel : Relocation) (b : Nat)
    (h : WordsApart (relocSite LowAddr Slide Rel) b) :
    read32 (relocate LowAddr Slide VAddr VSize s Rel).mem b = read32 s.mem b := by
  rw [relocate_mem]
  split_ifs
  · exact read32_write32_apart _ _ _ _ h
  · rfl

theorem relocateSegment_apart (LowAddr Slide VAddr VSize : Nat) (rels : List Relocation)
    (s : State) (b : Nat) (h : ∀ r ∈ rels, WordsApart (relocSite LowAddr Slide r) b) :
    read32 (relocateSegment LowAddr Slide VAddr VSize rels s).mem b = read32 s.mem b := by
  unfold relocateSegment
  induction rels generalizing s with
  | nil => rfl
  | cons r rest ih =>
    rw [List.foldl_cons, ih _ fun r1 h1 => h r1 (List.mem_cons_of_mem _ h1),
      relocate_apart _ _ _ _ _ _ _ (h r (List.mem_cons_self _ _))]

theorem relocateSegment_at (LowAddr Slide VAddr VSize : Nat) (rels : List Relocation)
    (s : State)
    (hp : rels.Pairwise fun r1 r2 =>
      WordsApart (relocSite LowAddr Slide r1) (relocSite LowAddr Slide r2))
    (Rel : Relocation) (hr : Rel ∈ rels) :
    read32 (relocateSegment LowAddr Slide VAddr VSize rels s).mem (relocSite LowAddr Slide Rel)
      = if read32 s.mem (relocSite LowAddr Slide Rel) = 0 then 0
        else u32 (read32 s.mem (relocSite LowAddr Slide Rel) + Slide) := by
  induction rels generalizing s with
  | nil => cases hr
  | cons r rest ih =>
    rw [List.pairwise_cons] at hp
    have unf : relocateSegment LowAddr Slide VAddr VSize (r :: rest) s
        = relocateSegment LowAddr Slide VAddr VSize rest
            (relocate LowAddr Slide VAddr VSize s r) := rfl
    rw [unf]
    by_cases hrr : Rel = r
    · subst hrr
      rw [relocateSegment_apart _ _ _ _ _ _ _ fun r1 h1 => ?_, relocate_at]
      rcases hp.1 r1 h1 with h | h
      · exact Or.inr h
      · exact Or.inl h
    · have hm : Rel ∈ rest := by
        rcases List.mem_cons.1 hr with h | h
        · exact absurd h hrr
        · exact h
      rw [ih _ hp.2 hm, relocate_apart _ _ _ _ _ _ _ (hp.1 Rel hm)]

/-- C3, as stated, fails, in each case for an image loaded with slide
`0x200000`.
In `overlappingRelocBinary` the site at offset 6 holds zero in the
pre-image but not after loading (the relocation of the overlapping site at
offset 4 changed it), and the site at offset 12 holds `0xFFFFF000` in the
pre-image and `0x1FF000`, not `0xFFFFF000 + 0x200000`, after loading.
In `twiceRelocBinary` two segments record the same site, and its word
`0x1000` is slid twice.
In `crossSegmentBinary` the site recorded by the first segment lies in the
second one, which is copied afterwards: the word `0x3000` is not slid.
In `boundSiteBinary` the site is also a bind site and holds the address of
the bound symbol after loading. -/
theorem rebase_counterexample :
    ((load overlappingRelocWorld 1 "app" emptyState).value? = some (some "app")
      ∧ (Registry.find (load overlappingRelocWorld 1 "app" emptyState).state.LIs "app").map
          (fun r => r.StartAddress) = some 0x200000
      ∧ read32 (preImage 0x200000 overlappingRelocBinary.segments emptyState.mem)
          (0x200000 + 6) = 0
      ∧ read32 (load overlappingRelocWorld 1 "app" emptyState).state.mem (0x200000 + 6)
          = 0x200020
      ∧ read32 (preImage 0x200000 overlappingRelocBinary.segments emptyState.mem)
          (0x200000 + 12) = 0xFFFFF000
      ∧ read32 (load overlappingRelocWorld 1 "app" emptyState).state.mem (0x200000 + 12)
          = 0x1FF000)
    ∧ ((load (appWorld twiceRelocBinary) 1 "app" emptyState).value? = some (some "app")
      ∧ machoSlide (appWorld twiceRelocBinary) "app" emptyState = 0x200000
      ∧ read32 (preImage 0x200000 twiceRelocBinary.segments emptyState.mem) 0x200000 = 0x1000
      ∧ read32 (load (appWorld twiceRelocBinary) 1 "app" emptyState).state.mem 0x200000
          = 0x401000)
    ∧ ((load (appWorld crossSegmentBinary) 1 "app" emptyState).value? = some (some "app")
      ∧ machoSlide (appWorld crossSegmentBinary) "app" emptyState = 0x200000
      ∧ read32 (preImage 0x200000 crossSegmentBinary.segments emptyState.mem) 0x201004 = 0x3000
      ∧ read32 (load (appWorld crossSegmentBinary) 1 "app" emptyState).state.mem 0x201004
          = 0x3000)
    ∧ ((load (appWorld boundSiteBinary) 2 "app" emptyState).value? = some (some "app")
      ∧ machoSlide (appWorld boundSiteBinary) "app" emptyState = 0x200000
      ∧ read32 (preImage 0x200000 boundSiteBinary.segments emptyState.mem) 0x200004 = 0x1000
      ∧ read32 (load (appWorld boundSiteBinary) 2 "app" emptyState).state.mem 0x200004
          = 0x12345678) := by
  decide

/-- The relocation loop of one segment: when the relocation sites of the
segment share no byte, the word at each site after the loop is the word
before it plus the slide modulo `2 ^ 32` if that word is non-zero, and is
still zero if it is zero. -/
theorem rebase_sites (LowAddr Slide VAddr VSize : Nat) (rels : List Relocation) (s : State)
    (hp : rels.Pairwise fun r1 r2 =>
      WordsApart (relocSite LowAddr Slide r1) (relocSite LowAddr Slide r2))
    (Rel : Relocation) (hr : Rel ∈ rels) :
    read32 (rebaseSegment LowAddr Slide VAddr VSize rels s).mem (relocSite LowAddr Slide Rel)
      = if read32 s.mem (relocSite LowAddr Slide Rel) = 0 then 0
        else u32 (read32 s.mem (relocSite LowAddr Slide Rel) + Slide) := by
  unfold rebaseSegment
  split_ifs with h0 hz hz
  · rw [relocateSegment_at _ _ _ _ _ _ hp _ hr, if_pos hz]
  · rw [relocateSegment_at _ _ _ _ _ _ hp _ hr, if_neg hz]
  · exact hz
  · have : Slide = 0 := by omega
    subst this
    unfold u32 read32
    omega

/-- Instance of `rebase_sites`: words `0`, `0x1000`, `0x2000` with
relocations at offsets 0, 4 and 8 and slide `0x200000`; the word at offset
4 becomes `0x201000`. -/
theorem rebase_sites_witness :
    read32 (rebaseSegment 0 0x200000 0x200000 0x1000
        [⟨false, true, 32, 0⟩, ⟨false, true, 32, 4⟩, ⟨false, true, 32, 8⟩]
        { emptyState with mem := (memcpy emptyState.mem 0x200000
            [0, 0, 0, 0, 0, 0x10, 0, 0, 0, 0x20, 0, 0]) }).mem 0x200004 = 0x201000 :=
  rebase_sites 0 0x200000 0x200000 0x1000
    [⟨false, true, 32, 0⟩, ⟨false, true, 32, 4⟩, ⟨false, true, 32, 8⟩]
    { emptyState with mem := (memcpy emptyState.mem 0x200000
        [0, 0, 0, 0, 0, 0x10, 0, 0, 0, 0x20, 0, 0]) }
    (by decide) ⟨false, true, 32, 4⟩ (by decide)


/-! ## The fetch-protection trap -/

theorem lookup_path (m : Registry) (a : Nat) : (lookup m a).LibPath = (lookup m a).Lib := by
  induction m with
  | nil => rfl
  | cons e rest ih =>
    obtain ⟨k, v⟩ := e
    unfold lookup
    split_ifs
    · rfl
    · exact ih

/-- C4: when `lookup(addr)` finds no image, a fetch at the kernel address
makes `handleFetchProtMem` call the emulator's stop primitive, report no
error and write no guest register, and it returns true once the emulator
has accepted the call; at any other address it reports "unmapped address
fetched" and returns false without any emulator call. -/
theorem handleFetchProtMem_unmapped (w : World) (fuel Addr : Nat) (s : State)
    (hnone : (lookup s.LIs Addr).Lib = none) :
    (Addr = s.KernelAddr →
      (handleFetchProtMem w fuel Addr s).state.events = s.events ++ [.uc .emu_stop]
      ∧ (handleFetchProtMem w fuel Addr s).state.errors = s.errors
      ∧ (handleFetchProtMem w fuel Addr s).state.regs = s.regs
      ∧ (w.uc .emu_stop = 0 → handleFetchProtMem w fuel Addr s
          = .ok true { s with stopped := true, events := s.events ++ [.uc .emu_stop] }))
    ∧ (Addr ≠ s.KernelAddr →
        handleFetchProtMem w fuel Addr s = .ok false (error s "unmapped address fetched")) := by
  unfold handleFetchProtMem handleFetchProtMemStep
  simp only [hnone]
  constructor
  · intro hk
    simp only [hk, if_true, callUC]
    by_cases hu : w.uc .emu_stop = 0
    · simp [hu, Outcome.bind, Outcome.state]
    · simp [hu, Outcome.bind, Outcome.state]
  · intro hk
    simp only [hk, if_false]

/-- Instance of `handleFetchProtMem_unmapped`: an empty registry, a fetch
at the kernel page and a fetch at address 5. -/
theorem handleFetchProtMem_unmapped_witness :
    ((handleFetchProtMem emptyWorld 1 0x100000 emptyState).state.events = [.uc .emu_stop]
      ∧ (handleFetchProtMem emptyWorld 1 0x100000 emptyState).state.errors = []
      ∧ (handleFetchProtMem emptyWorld 1 0x100000 emptyState).state.regs = emptyState.regs
      ∧ handleFetchProtMem emptyWorld 1 0x100000 emptyState
          = .ok true { emptyState with stopped := true, events := [.uc .emu_stop] })
    ∧ handleFetchProtMem emptyWorld 1 5 emptyState
        = .ok false (error emptyState "unmapped address fetched") :=
  ⟨let h := (handleFetchProtMem_unmapped emptyWorld 1 0x100000 emptyState rfl).1 rfl
   ⟨h.1, h.2.1, h.2.2.1, h.2.2.2 rfl⟩,
   (handleFetchProtMem_unmapped emptyWorld 1 5 emptyState rfl).2 (by decide)⟩

/-- C6, as stated, fails: a fetch at `0x5010` inside the registered wrapper
DLL makes `handleFetchProtMem` call `0x5010` natively with the value `0x77`
of R0 and set the guest PC to the value `0x4000` of LR, not to `0x5010`. -/
theorem wrapper_fetch_counterexample :
    (handleFetchProtMem emptyWorld 1 0x5010 wrapperState).value? = some true
    ∧ (handleFetchProtMem emptyWorld 1 0x5010 wrapperState).state.regs UC_ARM_REG_PC = 0x4000
    ∧ Event.nativeCall 0x5010 0x77
        ∈ (handleFetchProtMem emptyWorld 1 0x5010 wrapperState).state.events := by
  decide

/-- C6 (amended): for a fetch inside an image whose wrapper flag is set,
`handleFetchProtMem` loads no library, calls the fetched address natively
with the value of guest R0, sets the guest PC to the guest LR and returns
true (the emulator accepting the register accesses). -/
theorem handleFetchProtMem_wrapper (w : World) (fuel Addr : Nat) (s : State) (k : String)
    (r : LoadedLibrary) (hk : (lookup s.LIs Addr).Lib = some k)
    (hr : Registry.find s.LIs k = some r) (hw : r.IsWrapperDLL = true)
    (h0 : w.uc (.reg_read UC_ARM_REG_R0) = 0) (h1 : w.uc (.reg_read UC_ARM_REG_LR) = 0)
    (h2 : w.uc (.reg_write UC_ARM_REG_PC (s.regs UC_ARM_REG_LR)) = 0) :
    handleFetchProtMem w fuel Addr s
      = .ok true
          { s with
            mem := w.native Addr (s.regs UC_ARM_REG_R0) s.mem
            regs := Function.update s.regs UC_ARM_REG_PC (s.regs UC_ARM_REG_LR)
            events := s.events ++ [.fetchInfo k (sub64 Addr r.StartAddress) false,
              .uc (.reg_read UC_ARM_REG_R0), .nativeCall Addr (s.regs UC_ARM_REG_R0),
              .uc (.reg_read UC_ARM_REG_LR),
              .uc (.reg_write UC_ARM_REG_PC (s.regs UC_ARM_REG_LR))] } := by
  have hp := lookup_path s.LIs Addr
  rw [hk] at hp
  unfold handleFetchProtMem handleFetchProtMemStep
  simp only [hk, hr, hw, Bool.not_true, Bool.false_eq_true, if_false, dispatch, hp, callUC, h0,
    h1, h2, if_true, Outcome.bind, List.append_assoc, List.singleton_append, List.cons_append,
    List.nil_append]

/-- Instance of `handleFetchProtMem_wrapper`: the fetch at `0x5010` inside
the wrapper DLL of `wrapperState`. -/
theorem handleFetchProtMem_wrapper_witness :
    handleFetchProtMem emptyWorld 1 0x5010 wrapperState
      = .ok true
          { wrapperState with
            mem := emptyWorld.native 0x5010 (wrapperState.regs UC_ARM_REG_R0) wrapperState.mem
            regs := Function.update wrapperState.regs UC_ARM_REG_PC
              (wrapperState.regs UC_ARM_REG_LR)
            events := wrapperState.events ++ [.fetchInfo "gen\\liba.wrapper.dll"
                (sub64 0x5010 0x5000) false,
              .uc (.reg_read UC_ARM_REG_R0), .nativeCall 0x5010 (wrapperState.regs UC_ARM_REG_R0),
              .uc (.reg_read UC_ARM_REG_LR),
              .uc (.reg_write UC_ARM_REG_PC (wrapperState.regs UC_ARM_REG_LR))] } :=
  handleFetchProtMem_wrapper emptyWorld 1 0x5010 wrapperState "gen\\liba.wrapper.dll"
    ⟨0x5000, 0x1000, true, .dll 3⟩ rfl rfl rfl rfl rfl rfl


/-- C5, as stated, fails: in the dispatch scenario (fetch at
`0x10000 + 0x2345 - 0x1000` inside the native `liba.dll`, wrapper DLL and
wrapper dylib loading, trampoline `$__ipaSim_wraps_9029` found at
`0x200100`) `handleFetchProtMem` returns true without any native call and
with the guest PC at the trampoline `0x200100`, not at the guest LR
`0x4000`. -/
theorem dispatch_counterexample :
    (handleFetchProtMem dispatchWorld 1 0x11345 dispatchState).value? = some true
    ∧ ((handleFetchProtMem dispatchWorld 1 0x11345 dispatchState).state.events.any
        Event.isNativeCall) = false
    ∧ (handleFetchProtMem dispatchWorld 1 0x11345 dispatchState).state.regs UC_ARM_REG_PC
        = 0x200100
    ∧ (handleFetchProtMem dispatchWorld 1 0x11345 dispatchState).state.regs UC_ARM_REG_LR
        = 0x4000
    ∧ ((handleFetchProtMem dispatchWorld 1 0x11345 dispatchState).state.LIs.map fun e => e.1)
        = ["gen\\liba.wrapper.dll", "liba.dll", "liba_wrapper.dylib"] := by
  decide

/-- C5 (amended): for a fetch inside an image that is not a wrapper, when
the wrapper library loads, its index contains
`rva = addr - image.start + 0x1000`, the indexed dylib loads and exports
the symbol `$__ipaSim_wraps_` followed by the decimal form of `rva` at an
address that lies in a registered image, `handleFetchProtMem` makes no
native call and reads neither R0 nor LR: it sets the guest PC to the
address of that trampoline (as a 32-bit value) and returns true (the
emulator accepting the register write). -/
theorem handleFetchProtMem_not_wrapper (w : World) (fuel Addr : Nat) (s : State) (k : String)
    (r : LoadedLibrary) (hk : (lookup s.LIs Addr).Lib = some k)
    (hr : Registry.find s.LIs k = some r) (hw : r.IsWrapperDLL = false)
    (WL : String) (s1 : State) (h1 : load w fuel (wrapperPath k) s = .ok (some WL) s1)
    (IdxAddr : Nat) (s2 : State)
    (h2 : findSymbol w fuel WL "?Idx@@3UWrapperIndex@@A" s1 = .ok IdxAddr s2)
    (r2 : LoadedLibrary) (hr2 : Registry.find s2.LIs k = some r2)
    (Idx : WrapperIndex) (hidx : w.wrapperIndexAt IdxAddr = some Idx)
    (Entry : Nat × Nat)
    (hent : Idx.Map.find? (fun e => e.1 = u64 (sub64 Addr r2.StartAddress + 0x1000)) = some Entry)
    (Dylib : String) (hd : Idx.Dylibs.get? Entry.2 = some Dylib)
    (WD : String) (s3 : State) (h3 : load w fuel Dylib s2 = .ok (some WD) s3)
    (Addr1 : Nat) (s4 : State)
    (h4 : findSymbol w fuel WD
      ("$__ipaSim_wraps_" ++ toString (u64 (sub64 Addr r2.StartAddress + 0x1000))) s3
        = .ok Addr1 s4)
    (hne : Addr1 ≠ 0) (k4 : String) (r4 : LoadedLibrary)
    (hk4 : (lookup s4.LIs Addr1).Lib = some k4) (hr4 : Registry.find s4.LIs k4 = some r4)
    (hpc : w.uc (.reg_write UC_ARM_REG_PC (u32 Addr1)) = 0) :
    handleFetchProtMem w fuel Addr s
      = .ok true
          { s4 with
            regs := Function.update s4.regs UC_ARM_REG_PC (u32 Addr1)
            events := s4.events ++ [.fetchInfo k4 (sub64 Addr1 r4.StartAddress) true,
              .uc (.reg_write UC_ARM_REG_PC (u32 Addr1))] } := by
  have hp := lookup_path s.LIs Addr
  rw [hk] at hp
  have hp4 := lookup_path s4.LIs Addr1
  rw [hk4] at hp4
  unfold handleFetchProtMem handleFetchProtMemStep
  simp only [hk, hr, hw, hp, Bool.not_false, if_true, findWrapper, h1, Outcome.bind, h2, hr2,
    hidx, hent, hd, h3, h4, hne, if_false, hk4, Option.isSome_some, dispatch, hp4, hr4, callUC,
    hpc, List.append_assoc, List.singleton_append]

/-- Instance of `handleFetchProtMem_not_wrapper`: the dispatch scenario. -/
theorem handleFetchProtMem_not_wrapper_witness :
    ∃ s4 : State, handleFetchProtMem dispatchWorld 1 0x11345 dispatchState
      = .ok true
          { s4 with
            regs := Function.update s4.regs UC_ARM_REG_PC (u32 0x200100)
            events := s4.events ++ [.fetchInfo "liba_wrapper.dylib" (sub64 0x200100 0x200000) true,
              .uc (.reg_write UC_ARM_REG_PC (u32 0x200100))] } :=
  ⟨_, handleFetchProtMem_not_wrapper dispatchWorld 1 0x11345 dispatchState "liba.dll"
    ⟨0x10000, 0x2000, false, .dll 1⟩ rfl rfl rfl
    "gen\\liba.wrapper.dll" (load dispatchWorld 1 (wrapperPath "liba.dll") dispatchState).state rfl
    0x30010 (load dispatchWorld 1 (wrapperPath "liba.dll") dispatchState).state rfl
    ⟨0x10000, 0x2000, false, .dll 1⟩ rfl
    ⟨[(0x2345, 0)], ["liba_wrapper.dylib"]⟩ rfl (0x2345, 0) rfl "liba_wrapper.dylib" rfl
    "liba_wrapper.dylib"
    (load dispatchWorld 1 "liba_wrapper.dylib"
      (load dispatchWorld 1 (wrapperPath "liba.dll") dispatchState).state).state rfl
    0x200100
    (load dispatchWorld 1 "liba_wrapper.dylib"
      (load dispatchWorld 1 (wrapperPath "liba.dll") dispatchState).state).state rfl
    (by decide) "liba_wrapper.dylib"
    ⟨0x200000, 0x1000, false, .dylib wrapperDylibBinary⟩ rfl rfl rfl⟩


/-! ## Range of a loaded Mach-O image -/

theorem le_roundToPageSize (w : World) (hP : 0 < w.PageSize) (x : Nat)
    (hx : x + w.PageSize ≤ 2 ^ 64) : x ≤ roundToPageSize w x := by
  unfold roundToPageSize alignToPageSize
  rw [u64_of_lt (by omega)]
  have h1 := Nat.div_add_mod (x + w.PageSize - 1) w.PageSize
  have h2 := Nat.mod_lt (x + w.PageSize - 1) hP
  rw [Nat.mul_comm] at h1
  omega

theorem foldl_sizeSegment_high (w : World) (segs : List SegmentCommand) (acc : Bounds × State) :
    acc.1.HighAddr ≤ (segs.foldl (sizeSegment w) acc).1.HighAddr
      ∧ ∀ Seg ∈ segs, roundToPageSize w (u64 (Seg.virtual_address + Seg.virtual_size))
          ≤ (segs.foldl (sizeSegment w) acc).1.HighAddr := by
  induction segs generalizing acc with
  | nil => exact ⟨Nat.le_refl _, fun _ h => by cases h⟩
  | cons S rest ih =>
    rw [List.foldl_cons]
    obtain ⟨h1, h2⟩ := ih (sizeSegment w acc S)
    have hs : acc.1.HighAddr ≤ (sizeSegment w acc S).1.HighAddr
        ∧ roundToPageSize w (u64 (S.virtual_address + S.virtual_size))
            ≤ (sizeSegment w acc S).1.HighAddr := by
      unfold sizeSegment
      simp only
      split_ifs <;> omega
    refine ⟨hs.1.trans h1, fun Seg hm => ?_⟩
    rcases List.mem_cons.1 hm with h | h
    · subst h
      exact hs.2.trans h1
    · exact h2 Seg h

/-- When the lowest virtual address of the segments is 0 (and no 64-bit
sum wraps), every address of every mapped segment lies in
the range that `loadMachO` records for the image. -/
theorem segment_in_range_of_low_zero (w : World) (hP : 0 < w.PageSize)
    (segs : List SegmentCommand) (s : State) (Addr : Nat) (kind : LibKind)
    (hlow : (sizeSegments w segs s).1.LowAddr = 0)
    (hfit : Addr + (sizeSegments w segs s).1.HighAddr < 2 ^ 64)
    (hseg : ∀ Seg ∈ segs, Seg.virtual_address + Seg.virtual_size + w.PageSize ≤ 2 ^ 64)
    (Seg : SegmentCommand) (hmem : Seg ∈ segs) (a : Nat)
    (h1 : u64 (Seg.virtual_address + sub64 Addr (sizeSegments w segs s).1.LowAddr) ≤ a)
    (h2 : a < u64 (Seg.virtual_address + sub64 Addr (sizeSegments w segs s).1.LowAddr)
      + Seg.virtual_size) :
    LoadedLibrary.isInRange
      ⟨sub64 Addr (sizeSegments w segs s).1.LowAddr,
       sub64 (sizeSegments w segs s).1.HighAddr (sizeSegments w segs s).1.LowAddr, false, kind⟩
      a = true := by
  have hhigh := (foldl_sizeSegment_high w segs (⟨2 ^ 64 - 1, 0⟩, s)).2 Seg hmem
  have hfitS := hseg Seg hmem
  have hround := le_roundToPageSize w hP (Seg.virtual_address + Seg.virtual_size) hfitS
  rw [u64_of_lt (by omega)] at hhigh
  have hH : Seg.virtual_address + Seg.virtual_size ≤ (sizeSegments w segs s).1.HighAddr :=
    hround.trans hhigh
  rw [hlow] at h1 h2 ⊢
  have e1 : sub64 Addr 0 = Addr := by
    unfold sub64
    omega
  have e2 : sub64 (sizeSegments w segs s).1.HighAddr 0 = (sizeSegments w segs s).1.HighAddr := by
    unfold sub64
    omega
  rw [e1] at h1 h2
  rw [e1, e2]
  rw [u64_of_lt (by omega)] at h1 h2
  exact isInRange_complete (by simp only; omega) (by simp only; omega) (by simp only; omega)

/-- C7 fails on the code: loading `highSegmentBinary` (one segment at
virtual address `0x4000`, allocation at `0x200000`) maps the segment at
`[0x200000, 0x201000)` but records the range `[0x1FC000, 0x1FD000)`, the
slide being stored as start address; the lookup of the first address of the
mapped segment finds no image. -/
theorem loadMachO_range_defect :
    (load highSegmentWorld 1 "app" emptyState).value? = some (some "app")
    ∧ Event.uc (.mem_map_ptr 0x200000 0x1000 UC_PROT_READ)
        ∈ (load highSegmentWorld 1 "app" emptyState).state.events
    ∧ read32 (load highSegmentWorld 1 "app" emptyState).state.mem 0x200000 = 0x04030201
    ∧ ((Registry.find (load highSegmentWorld 1 "app" emptyState).state.LIs "app").map
        fun r => (r.StartAddress, r.Size)) = some (0x1FC000, 0x1000)
    ∧ lookup (load highSegmentWorld 1 "app" emptyState).state.LIs 0x200000 = ⟨none, none, ""⟩ := by
  decide


/-! ## Binding of external symbols -/

/-- C9, as stated, fails: a supported record whose library does not load
leaves two reports, the one of `load` and the one of the binding loop; and
a supported record whose library loads and whose symbol resolves is not
written when its site is outside the image range: `checkInRange` throws and
nothing is reported. -/
theorem bind_counterexample :
    ((bindSymbol (load bindWorld 1) (findSymbol bindWorld 1) "app" 0x200000
        (fooBinding "missing.dll" 0x10) bindState).state.errors
      = ["invalid file: missing.dll", "symbol's library couldn't be loaded"])
    ∧ ((bindSymbol (load bindWorld 1) (findSymbol bindWorld 1) "app" 0x200000
          (fooBinding "lib.dll" 0x9000) bindState).crashed?
        = some (.thrown "address out of range")
      ∧ (bindSymbol (load bindWorld 1) (findSymbol bindWorld 1) "app" 0x200000
          (fooBinding "lib.dll" 0x9000) bindState).state.errors = []
      ∧ read32 (bindSymbol (load bindWorld 1) (findSymbol bindWorld 1) "app" 0x200000
          (fooBinding "lib.dll" 0x9000) bindState).state.mem (0x200000 + 0x9000) = 0) := by
  decide

/-- C9 (amended): for a binding record processed by `loadMachO` for the
image `LLP` with slide `Slide`:
an unsupported record, or one without library, reports exactly one error
and changes nothing else;
when the library does not load, the only changes are the report of `load`
and one report of the binding loop;
when the symbol resolves to zero, the binding loop adds one report to the
state left by the symbol lookup and writes nothing;
when it resolves to a non-zero address, the word at
`binding.address + Slide` is written if and only if that address lies in
the range of the image: then the word holds the resolved address modulo
`2 ^ 32`, and otherwise the loader throws "address out of range" without
writing or reporting. -/
theorem bindSymbol_outcome (w : World) (n : Nat) (LLP : String) (Slide : Nat) (b : BindingInfo)
    (s : State) :
    (unsupportedBinding b = true →
      bindSymbol (load w n) (findSymbol w n) LLP Slide b s
        = .ok () (error s "unsupported binding info"))
    ∧ (unsupportedBinding b = false → b.has_library = false →
      bindSymbol (load w n) (findSymbol w n) LLP Slide b s
        = .ok () (error s "flat-namespace symbols are not supported yet"))
    ∧ (unsupportedBinding b = false → b.has_library = true →
        ∀ s1, load w n b.libraryName s = .ok none s1 →
          ∃ msg, bindSymbol (load w n) (findSymbol w n) LLP Slide b s
            = .ok () (error (error s msg) "symbol's library couldn't be loaded"))
    ∧ (unsupportedBinding b = false → b.has_library = true →
        ∀ L s1 s2, load w n b.libraryName s = .ok (some L) s1 →
          findSymbol w n L b.symbolName s1 = .ok 0 s2 →
          bindSymbol (load w n) (findSymbol w n) LLP Slide b s
            = .ok () (error s2 "external symbol couldn't be resolved"))
    ∧ (unsupportedBinding b = false → b.has_library = true →
        ∀ L s1 a s2 r, load w n b.libraryName s = .ok (some L) s1 →
          findSymbol w n L b.symbolName s1 = .ok a s2 → a ≠ 0 →
          Registry.find s2.LIs LLP = some r →
          (r.isInRange (u64 (b.address + Slide)) = true →
            bindSymbol (load w n) (findSymbol w n) LLP Slide b s
                = .ok () { s2 with mem := write32 s2.mem (u64 (b.address + Slide)) a }
              ∧ read32 (write32 s2.mem (u64 (b.address + Slide)) a) (u64 (b.address + Slide))
                  = u32 a
              ∧ r.StartAddress ≤ u64 (b.address + Slide)
              ∧ u64 (b.address + Slide) < r.StartAddress + r.Size)
          ∧ (r.isInRange (u64 (b.address + Slide)) = false →
            bindSymbol (load w n) (findSymbol w n) LLP Slide b s
              = .crash (.thrown "address out of range") s2)) := by
  refine ⟨?_, ?_, ?_, ?_, ?_⟩
  · intro h
    simp [bindSymbol, h]
  · intro h hl
    simp [bindSymbol, h, hl]
  · intro h hl s1 h1
    cases n with
    | zero => simp [load, loaderFns] at h1
    | succ n =>
      have h1' := h1
      rw [load_succ] at h1'
      obtain ⟨_, _, hnone⟩ := loadStep_ok (load_mono w n) (findSymbol_mono w n) h1'
      obtain ⟨_, msg, hs1, _⟩ := hnone rfl
      refine ⟨msg, ?_⟩
      simp [bindSymbol, h, hl, h1, Outcome.bind, hs1]
  · intro h hl L s1 s2 h1 h2
    simp [bindSymbol, h, hl, h1, h2, Outcome.bind]
  · intro h hl L s1 a s2 r h1 h2 ha hr
    constructor
    · intro hin
      refine ⟨?_, read32_write32_same _ _ _, (isInRange_sound hin).1, (isInRange_sound hin).2⟩
      simp [bindSymbol, h, hl, h1, h2, Outcome.bind, ha, hr, hin]
    · intro hin
      simp [bindSymbol, h, hl, h1, h2, Outcome.bind, ha, hr, hin]

/-- Instance of `bindSymbol_outcome`: `foo` of the registered `lib.dll`
bound at offset `0x10` of `app`, and a record whose library is missing. -/
theorem bindSymbol_outcome_witness :
    (bindSymbol (load bindWorld 1) (findSymbol bindWorld 1) "app" 0x200000
        (fooBinding "lib.dll" 0x10) bindState
      = .ok () { bindState with mem := write32 bindState.mem 0x200010 0x12345678 }
      ∧ read32 (write32 bindState.mem 0x200010 0x12345678) 0x200010 = 0x12345678
      ∧ 0x200000 ≤ 0x200010 ∧ 0x200010 < 0x200000 + 0x1000)
    ∧ ∃ msg, bindSymbol (load bindWorld 1) (findSymbol bindWorld 1) "app" 0x200000
        (fooBinding "missing.dll" 0x10) bindState
          = .ok () (error (error bindState msg) "symbol's library couldn't be loaded") :=
  ⟨((bindSymbol_outcome bindWorld 1 "app" 0x200000 (fooBinding "lib.dll" 0x10)
      bindState).2.2.2.2 rfl rfl "lib.dll" bindState 0x12345678 bindState
      ⟨0x200000, 0x1000, false, .dylib emptyBinary⟩ rfl rfl (by decide) rfl).1 rfl,
   (bindSymbol_outcome bindWorld 1 "app" 0x200000 (fooBinding "missing.dll" 0x10)
      bindState).2.2.1 rfl rfl (error bindState "invalid file: missing.dll") rfl⟩


/-! ## Symbols of re-exported libraries -/

theorem reexportLoop_eq_firstResolved (w : World) (n : Nat) (Name : String)
    (libs : List DylibCommand) (s : State)
    (h : ∀ Lib ∈ libs, Lib.command = .LC_REEXPORT_DYLIB →
      Registry.find s.LIs (resolvePath w Lib.name).Path ≠ none) :
    reexportLoop (load w (n + 1)) (findSymbol w (n + 1)) Name libs s
      = firstResolved (findSymbol w (n + 1)) Name (reexportedKeys w libs) s := by
  induction libs generalizing s with
  | nil => rfl
  | cons Lib rest ih =>
    have hrest : ∀ s1 : State, KeysLe s.LIs s1.LIs → ∀ L ∈ rest,
        L.command = .LC_REEXPORT_DYLIB →
        Registry.find s1.LIs (resolvePath w L.name).Path ≠ none :=
      fun s1 hle L hL hc => hle _ (h L (List.mem_cons_of_mem _ hL) hc)
    unfold reexportLoop
    by_cases hc : Lib.command = .LC_REEXPORT_DYLIB
    · have hreg := h Lib (List.mem_cons_self _ _) hc
      have hkeys : reexportedKeys w (Lib :: rest)
          = (resolvePath w Lib.name).Path :: reexportedKeys w rest := by
        simp [reexportedKeys, List.filter_cons, hc]
      rw [if_pos hc, load_registered w n Lib.name s hreg, hkeys]
      simp only [Outcome.bind, firstResolved]
      cases hB : Registry.find s.LIs (resolvePath w Lib.name).Path with
      | none => exact absurd hB hreg
      | some r =>
        simp only
        cases hfs : findSymbol w (n + 1) (resolvePath w Lib.name).Path
            (delegatedName r.hasUnderscorePrefix Name) s with
        | crash c s1 => rfl
        | ok a s1 =>
          simp only
          by_cases ha : a = 0
          · simp only [ha, ne_eq, not_true_eq_false, if_false]
            exact ih s1 (hrest s1 (findSymbol_mono w (n + 1) _ _ _ _ _ hfs))
          · simp only [ne_eq, ha, not_false_eq_true, if_true]
    · have hkeys : reexportedKeys w (Lib :: rest) = reexportedKeys w rest := by
        simp [reexportedKeys, List.filter_cons, hc]
      rw [if_neg hc, hkeys]
      exact ih s (hrest s (KeysLe.refl _))

/-- C10: on a Mach-O image `A`, `findSymbol(name)` returns
`StartAddress + symbol.value` when `A` defines the name; otherwise, the
images `A` re-exports being loaded, it returns what the first of them in
load-command order with a non-zero answer returns for the name, passed
without its leading underscore to an image that does not use the
underscore convention, and zero when none of them resolves it. -/
theorem findSymbol_reexport (w : World) (n : Nat) (A Name : String) (s : State)
    (rA : LoadedLibrary) (Bin : Binary) (hA : Registry.find s.LIs A = some rA)
    (hkind : rA.kind = .dylib Bin) :
    (Bin.has_symbol Name = true →
      findSymbol w (n + 1) A Name s = .ok (u64 (rA.StartAddress + Bin.get_symbol Name)) s)
    ∧ (Bin.has_symbol Name = false →
        (∀ Lib ∈ Bin.libraries, Lib.command = .LC_REEXPORT_DYLIB →
          Registry.find s.LIs (resolvePath w Lib.name).Path ≠ none) →
        findSymbol w (n + 2) A Name s
          = firstResolved (findSymbol w (n + 1)) Name (reexportedKeys w Bin.libraries) s) := by
  constructor
  · intro hs
    rw [findSymbol_succ]
    simp [findSymbolStep, hA, hkind, LoadedDylib.findSymbol, hs]
  · intro hs hl
    rw [findSymbol_succ]
    simp only [findSymbolStep, hA, hkind, LoadedDylib.findSymbol, hs, Bool.not_false, if_true]
    exact reexportLoop_eq_firstResolved w n Name Bin.libraries s hl

/-- Instance of `findSymbol_reexport`: `liba.dylib` defines `_bar` and
re-exports the native `libb.dll`, which exports `foo`; `_bar` is found in
`liba.dylib` and `_foo` at the address of `foo` in `libb.dll`. -/
theorem findSymbol_reexport_witness :
    findSymbol bindWorld 1 "liba.dylib" "_bar" reexportState = .ok 0x200040 reexportState
    ∧ findSymbol bindWorld 2 "liba.dylib" "_foo" reexportState = .ok 0x12345678 reexportState :=
  ⟨(findSymbol_reexport bindWorld 0 "liba.dylib" "_bar" reexportState
      ⟨0x200000, 0x1000, false, .dylib reexportBinary⟩ reexportBinary rfl rfl).1 rfl,
   ((findSymbol_reexport bindWorld 0 "liba.dylib" "_foo" reexportState
      ⟨0x200000, 0x1000, false, .dylib reexportBinary⟩ reexportBinary rfl rfl).2 rfl
      (by decide)).trans rfl⟩


/-! ## The wrapper flag -/

theorem wrapperFlag_some {BP : BinaryPath} {flag : Bool} (h : wrapperFlag BP = some flag) :
    flag = true ↔ BP.Relative = true ∧ startsWith BP.Path "gen\\" = true
      ∧ endsWith BP.Path ".wrapper.dll" = some true := by
  unfold wrapperFlag at h
  split_ifs at h with hc
  · simp only [Bool.and_eq_true] at hc
    rw [h]
    constructor
    · intro hf
      exact ⟨hc.1, hc.2, by rw [hf]⟩
    · intro hf
      exact Option.some.inj hf.2.2
  · simp only [Bool.and_eq_true] at hc
    cases h
    constructor
    · intro hf
      cases hf
    · intro hf
      exact absurd ⟨hf.1, hf.2.1⟩ hc

theorem wrapperFlag_short {BP : BinaryPath} (hr : BP.Relative = true)
    (hs : startsWith BP.Path "gen\\" = true) (hl : (bytesOf BP.Path).length < 12) :
    wrapperFlag BP = none := by
  unfold wrapperFlag endsWith
  have h12 : (bytesOf ".wrapper.dll").length = 12 := by decide
  simp [hr, hs, h12, hl]

theorem setWrapperFlag_record {BP : BinaryPath} {L r : LibPtr} {s s1 : State}
    (h : setWrapperFlag BP L s = .ok r s1) :
    ∃ k flag, L = some k ∧ r = some k ∧ wrapperFlag BP = some flag
      ∧ s1.LIs = Registry.modify s.LIs k fun r => { r with IsWrapperDLL := flag } := by
  unfold setWrapperFlag at h
  split at h
  · cases h
  · rename_i flag hflag
    split at h
    · cases h
    · rename_i k
      cases h
      exact ⟨k, flag, rfl, rfl, hflag, rfl⟩


/-- C11: when the first `load` of a path returns a record, the wrapper
flag of that record is true if and only if the resolved path is relative,
begins with `gen\` and ends with `.wrapper.dll`. The computation is not
total: for a relative resolved path that begins with `gen\` and has fewer
bytes than `.wrapper.dll`, `endsWith` throws `std::out_of_range`, so `load`
returns no record, and it throws after `loadMachO` or `loadPE` has loaded
and registered the image. -/
theorem load_wrapper_flag (w : World) (n : Nat) (Path : String) (s : State)
    (hreg : Registry.find s.LIs (resolvePath w Path).Path = none) :
    (∀ k s1, load w (n + 1) Path s = .ok (some k) s1 →
      ∃ r, Registry.find s1.LIs k = some r ∧
        (r.IsWrapperDLL = true ↔ (resolvePath w Path).Relative = true
          ∧ startsWith (resolvePath w Path).Path "gen\\" = true
          ∧ endsWith (resolvePath w Path).Path ".wrapper.dll" = some true))
    ∧ ((resolvePath w Path).Relative = true →
        startsWith (resolvePath w Path).Path "gen\\" = true →
        (bytesOf (resolvePath w Path).Path).length < 12 →
        (∀ k s1, load w (n + 1) Path s ≠ .ok (some k) s1)
        ∧ (w.isFileValid (resolvePath w Path) = true →
            w.is_macho (resolvePath w Path).Path = true →
            ∀ L s0, loadMachO w (load w n) (findSymbol w n) (resolvePath w Path).Path s
                = .ok L s0 →
              load w (n + 1) Path s = .crash (.thrown "std::out_of_range") s0)
        ∧ (w.isFileValid (resolvePath w Path) = true →
            w.is_macho (resolvePath w Path).Path = false →
            w.is_pe (resolvePath w Path).Path = true →
            ∀ L s0, loadPE w (resolvePath w Path).Path s = .ok L s0 →
              load w (n + 1) Path s = .crash (.thrown "std::out_of_range") s0)) := by
  have key : ∀ k s1, load w (n + 1) Path s = .ok (some k) s1 →
      ∃ r flag, Registry.find s1.LIs k = some r ∧ r.IsWrapperDLL = flag
        ∧ wrapperFlag (resolvePath w Path) = some flag := by
    intro k s1 h
    rw [load_succ] at h
    unfold loadStep at h
    simp only [hreg] at h
    split_ifs at h with h1 h2 h3
    · cases h
    · obtain ⟨L, s0, h4, h5⟩ := bind_eq_ok h
      obtain ⟨e1, e2, _⟩ := loadMachO_ok (load_mono w n) (findSymbol_mono w n) h4
      obtain ⟨k1, flag, e3, e4, e5, e6⟩ := setWrapperFlag_record h5
      subst e1
      cases e3
      cases e4
      cases hf : Registry.find s0.LIs (resolvePath w Path).Path with
      | none => exact absurd hf e2
      | some r0 =>
        refine ⟨{ r0 with IsWrapperDLL := flag }, flag, ?_, rfl, e5⟩
        rw [e6, find_modify]
        simp [hf]
    · obtain ⟨L, s0, h4, h5⟩ := bind_eq_ok h
      obtain ⟨k1, flag, e3, e4, e5, e6⟩ := setWrapperFlag_record h5
      subst e3
      cases e4
      obtain ⟨e1, e2, _⟩ := loadPE_ok h4
      subst e1
      cases hf : Registry.find s0.LIs (resolvePath w Path).Path with
      | none => exact absurd hf e2
      | some r0 =>
        refine ⟨{ r0 with IsWrapperDLL := flag }, flag, ?_, rfl, e5⟩
        rw [e6, find_modify]
        simp [hf]
    · cases h
  constructor
  · intro k s1 h
    obtain ⟨r, flag, hr, hflag, hw⟩ := key k s1 h
    exact ⟨r, hr, by rw [hflag]; exact wrapperFlag_some hw⟩
  · intro hrel hstart hlen
    have hnone := wrapperFlag_short hrel hstart hlen
    refine ⟨?_, ?_, ?_⟩
    · intro k s1 h
      obtain ⟨_, flag, _, _, hw⟩ := key k s1 h
      rw [hnone] at hw
      cases hw
    · intro hv hm L s0 hL
      rw [load_succ]
      unfold loadStep
      simp only [hreg, hv, hm, Bool.not_true, Bool.false_eq_true, if_false, if_true, hL,
        Outcome.bind, setWrapperFlag, hnone]
    · intro hv hm hp L s0 hL
      rw [load_succ]
      unfold loadStep
      simp only [hreg, hv, hm, hp, Bool.not_true, Bool.false_eq_true, if_false, if_true, hL,
        Outcome.bind, setWrapperFlag, hnone]

/-- Instance of `load_wrapper_flag`: the wrapper DLL of `dispatchWorld`
gets the flag, and the load of the guest path `/a.dylib` (resolved to the
11 characters `gen\a.dylib`) in `shortPathWorld` throws after the image was
registered. -/
theorem load_wrapper_flag_witness :
    (∃ r, Registry.find (load dispatchWorld 1 "gen\\liba.wrapper.dll" emptyState).state.LIs
        "gen\\liba.wrapper.dll" = some r
      ∧ (r.IsWrapperDLL = true ↔ true = true ∧ startsWith "gen\\liba.wrapper.dll" "gen\\" = true
          ∧ endsWith "gen\\liba.wrapper.dll" ".wrapper.dll" = some true))
    ∧ (load shortPathWorld 1 "/a.dylib" emptyState
        = .crash (.thrown "std::out_of_range")
            (loadMachO shortPathWorld (load shortPathWorld 0) (findSymbol shortPathWorld 0)
              "gen\\a.dylib" emptyState).state
      ∧ Registry.find (load shortPathWorld 1 "/a.dylib" emptyState).state.LIs "gen\\a.dylib"
          = some ⟨0x200000, 0x1000, false, .dylib onePageBinary⟩) :=
  ⟨(load_wrapper_flag dispatchWorld 0 "gen\\liba.wrapper.dll" emptyState rfl).1
      "gen\\liba.wrapper.dll" _ rfl,
   ((load_wrapper_flag shortPathWorld 0 "/a.dylib" emptyState rfl).2 rfl (by decide)
      (by decide)).2.1 rfl rfl (some "gen\\a.dylib") _ rfl,
   by decide⟩


/-! ## Overlapping segments -/

theorem sizeSegment_errors_mono (w : World) (acc : Bounds × State) (Seg : SegmentCommand)
    (msg : String) (h : msg ∈ acc.2.errors) : msg ∈ (sizeSegment w acc Seg).2.errors := by
  unfold sizeSegment
  simp only [error]
  split_ifs
  · exact List.mem_append_left _ h
  · exact h

theorem foldl_sizeSegment_errors_mono (w : World) (segs : List SegmentCommand)
    (acc : Bounds × State) (msg : String) (h : msg ∈ acc.2.errors) :
    msg ∈ (segs.foldl (sizeSegment w) acc).2.errors := by
  induction segs generalizing acc with
  | nil => exact h
  | cons S rest ih =>
    rw [List.foldl_cons]
    exact ih _ (sizeSegment_errors_mono w acc S msg h)

theorem foldl_sizeSegment_low (w : World) (segs : List SegmentCommand) (acc : Bounds × State) :
    (segs.foldl (sizeSegment w) acc).1.LowAddr ≤ acc.1.LowAddr
      ∧ ∀ Seg ∈ segs, (segs.foldl (sizeSegment w) acc).1.LowAddr ≤ Seg.virtual_address := by
  induction segs generalizing acc with
  | nil => exact ⟨Nat.le_refl _, fun _ h => by cases h⟩
  | cons S rest ih =>
    rw [List.foldl_cons]
    obtain ⟨h1, h2⟩ := ih (sizeSegment w acc S)
    have hs : (sizeSegment w acc S).1.LowAddr ≤ acc.1.LowAddr
        ∧ (sizeSegment w acc S).1.LowAddr ≤ S.virtual_address := by
      unfold sizeSegment
      simp only
      split_ifs <;> omega
    refine ⟨h1.trans hs.1, fun Seg hm => ?_⟩
    rcases List.mem_cons.1 hm with h | h
    · subst h
      exact h1.trans hs.2
    · exact h2 Seg h

/-- The overlaps that the sizing loop does report: when the ranges of a
segment `B` and of an earlier segment `A` intersect, the error is reported
unless `B` begins before `A` and ends after it. -/
theorem overlap_reported_unless_enclosing (w : World) (s : State)
    (pre mid post : List SegmentCommand) (A B : SegmentCommand)
    (hint : RangesIntersect w A B)
    (hnot : ¬ (B.virtual_address < A.virtual_address
      ∧ roundToPageSize w (u64 (A.virtual_address + A.virtual_size))
          < roundToPageSize w (u64 (B.virtual_address + B.virtual_size)))) :
    "overlapping segments (after rounding to pagesize)"
      ∈ (sizeSegments w (pre ++ A :: (mid ++ B :: post)) s).2.errors := by
  unfold sizeSegments
  have e : pre ++ A :: (mid ++ B :: post) = (pre ++ A :: mid) ++ B :: post := by simp
  rw [e, List.foldl_append, List.foldl_cons]
  apply foldl_sizeSegment_errors_mono
  have hA : A ∈ pre ++ A :: mid := by simp
  have hlow := (foldl_sizeSegment_low w (pre ++ A :: mid) (⟨2 ^ 64 - 1, 0⟩, s)).2 A hA
  have hhigh := (foldl_sizeSegment_high w (pre ++ A :: mid) (⟨2 ^ 64 - 1, 0⟩, s)).2 A hA
  unfold RangesIntersect at hint
  simp only [lt_min_iff, max_lt_iff] at hint
  obtain ⟨⟨h1, h2⟩, h3, h4⟩ := hint
  generalize List.foldl (sizeSegment w) (⟨2 ^ 64 - 1, 0⟩, s) (pre ++ A :: mid) = acc
    at hlow hhigh ⊢
  unfold sizeSegment
  simp only [error]
  rw [if_pos]
  · simp
  · by_cases hb : B.virtual_address < A.virtual_address
    · right
      have : roundToPageSize w (u64 (B.virtual_address + B.virtual_size))
          ≤ roundToPageSize w (u64 (A.virtual_address + A.virtual_size)) := by
        by_contra hc
        exact hnot ⟨hb, by omega⟩
      omega
    · left
      omega

/-- C12 fails on the code: the ranges `[0x1000, 0x2000)` of `innerSegment`
and `[0, 0x3000)` of `outerSegment` intersect, but with the enclosing
segment listed second the sizing loop reports nothing, and the whole `load`
of such an image returns without any report; listed first, the overlap is
reported. -/
theorem sizeSegments_overlap_missed :
    RangesIntersect emptyWorld innerSegment outerSegment
    ∧ (sizeSegments emptyWorld [innerSegment, outerSegment] emptyState).2.errors = []
    ∧ (sizeSegments emptyWorld [outerSegment, innerSegment] emptyState).2.errors
        = ["overlapping segments (after rounding to pagesize)"]
    ∧ (load enclosingWorld 1 "app" emptyState).value? = some (some "app")
    ∧ (load enclosingWorld 1 "app" emptyState).state.errors = [] := by
  decide


/-! ## Rebasing, from the pre-image to the loaded image -/

theorem loadMachO_phases (w : World) (ld : LoadFn) (fs : FindFn) (Path : String) (s : State) :
    loadMachO w ld fs Path s
      = (segmentsLoaded w Path s).bind fun _ s6 =>
          (loadLibraries ld (w.parse Path).libraries s6).bind fun _ s7 =>
            (bindSymbols ld fs Path (machoSlide w Path s) (w.parse Path).bindings s7).bind
              fun _ s8 => .ok (some Path) s8 := rfl

theorem agree_refl (a : Nat) (m : Memory) : AgreeAt a m m := fun _ _ => rfl

theorem agree_trans {a : Nat} {m1 m2 m3 : Memory} (h1 : AgreeAt a m1 m2)
    (h2 : AgreeAt a m2 m3) : AgreeAt a m1 m3 := fun i hi => (h1 i hi).trans (h2 i hi)

theorem agree_symm {a : Nat} {m1 m2 : Memory} (h : AgreeAt a m1 m2) : AgreeAt a m2 m1 :=
  fun i hi => (h i hi).symm

theorem read32_agree {a : Nat} {m1 m2 : Memory} (h : AgreeAt a m1 m2) :
    read32 m1 a = read32 m2 a := by
  unfold read32
  have h0 := h 0 (by omega)
  rw [Nat.add_zero] at h0
  rw [h0, h 1 (by omega), h 2 (by omega), h 3 (by omega)]

theorem write32_agree_apart (m : Memory) (a b v : Nat) (h : WordsApart b a) :
    AgreeAt a (write32 m b v) m := by
  intro i hi
  unfold WordsApart at h
  unfold write32
  have e0 : a + i ≠ b := by omega
  have e1 : a + i ≠ b + 1 := by omega
  have e2 : a + i ≠ b + 2 := by omega
  have e3 : a + i ≠ b + 3 := by omega
  simp only [e0, e1, e2, e3, if_false]

theorem placeSegment_agree (Slide : Nat) (Seg : SegmentCommand) {a : Nat} {m1 m2 : Memory}
    (h : AgreeAt a m1 m2) : AgreeAt a (placeSegment Slide m1 Seg) (placeSegment Slide m2 Seg) := by
  intro i hi
  unfold placeSegment memzero memcpy
  have hx := h i hi
  split_ifs <;> simp_all

theorem placeSegment_untouched (Slide : Nat) (Seg : SegmentCommand) (a : Nat) (m : Memory)
    (h : Untouched Slide Seg a) : AgreeAt a (placeSegment Slide m Seg) m := by
  intro i hi
  unfold Untouched at h
  unfold placeSegment memzero memcpy
  rcases h with h | h | h
  · simp only [h, if_true]
  · have hn : toPerms Seg.init_protection = UC_PROT_NONE
        ∨ toPerms Seg.init_protection ≠ UC_PROT_NONE := em _
    rcases hn with hn | hn
    · simp only [hn, if_true]
    · have c1 : ¬ (u64 (Seg.virtual_address + Slide) ≤ a + i
          ∧ a + i < u64 (Seg.virtual_address + Slide) + Seg.content.length) := by omega
      have c2 : ¬ (u64 (Seg.virtual_address + Slide) + Seg.content.length ≤ a + i
          ∧ a + i < u64 (Seg.virtual_address + Slide) + Seg.content.length
              + (Seg.virtual_size - Seg.content.length)) := by omega
      by_cases hl : Seg.content.length < Seg.virtual_size
      · simp only [hn, hl, c1, c2, if_false, if_true]
      · simp only [hn, hl, c1, if_false]
  · have hn : toPerms Seg.init_protection = UC_PROT_NONE
        ∨ toPerms Seg.init_protection ≠ UC_PROT_NONE := em _
    rcases hn with hn | hn
    · simp only [hn, if_true]
    · have c1 : ¬ (u64 (Seg.virtual_address + Slide) ≤ a + i
          ∧ a + i < u64 (Seg.virtual_address + Slide) + Seg.content.length) := by omega
      have c2 : ¬ (u64 (Seg.virtual_address + Slide) + Seg.content.length ≤ a + i
          ∧ a + i < u64 (Seg.virtual_address + Slide) + Seg.content.length
              + (Seg.virtual_size - Seg.content.length)) := by omega
      by_cases hl : Seg.content.length < Seg.virtual_size
      · simp only [hn, hl, c1, c2, if_false, if_true]
      · simp only [hn, hl, c1, if_false]

theorem preImage_untouched (Slide : Nat) (segs : List SegmentCommand) (a : Nat) (m : Memory)
    (h : ∀ S ∈ segs, Untouched Slide S a) : AgreeAt a (preImage Slide segs m) m := by
  unfold preImage
  induction segs generalizing m with
  | nil => exact agree_refl _ _
  | cons S rest ih =>
    rw [List.foldl_cons]
    exact agree_trans (ih _ fun S1 h1 => h S1 (List.mem_cons_of_mem _ h1))
      (placeSegment_untouched Slide S a m (h S (List.mem_cons_self _ _)))

theorem relocate_agree_apart (LowAddr Slide VAddr VSize : Nat) (s : State) (Rel : Relocation)
    (a : Nat) (h : WordsApart (relocSite LowAddr Slide Rel) a) :
    AgreeAt a (relocate LowAddr Slide VAddr VSize s Rel).mem s.mem := by
  rw [relocate_mem]
  split_ifs
  · exact write32_agree_apart _ _ _ _ h
  · exact agree_refl _ _

theorem rebaseSegment_agree_apart (LowAddr Slide VAddr VSize : Nat) (rels : List Relocation)
    (s : State) (a : Nat) (h : ∀ r ∈ rels, WordsApart (relocSite LowAddr Slide r) a) :
    AgreeAt a (rebaseSegment LowAddr Slide VAddr VSize rels s).mem s.mem := by
  unfold rebaseSegment
  split_ifs
  · unfold relocateSegment
    induction rels generalizing s with
    | nil => exact agree_refl _ _
    | cons r rest ih =>
      rw [List.foldl_cons]
      exact agree_trans (ih _ fun r1 h1 => h r1 (List.mem_cons_of_mem _ h1))
        (relocate_agree_apart _ _ _ _ _ _ _ (h r (List.mem_cons_self _ _)))
  · exact agree_refl _ _

theorem callUC_mem {w : World} {c : UcCall} {s s1 : State} {u : Unit}
    (h : callUC w c s = .ok u s1) : s1.mem = s.mem := by
  unfold callUC at h
  split_ifs at h
  cases h
  rfl

/-- What one round of the segment loop leaves in memory: the segment is
placed, then its relocations are applied. -/
theorem loadSegment_mem {w : World} {LowAddr Slide : Nat} {Seg : SegmentCommand}
    {s s1 : State} {u : Unit} (h : loadSegment w LowAddr Slide Seg s = .ok u s1) :
    ∃ t : State, t.mem = placeSegment Slide s.mem Seg
      ∧ s1.mem = (rebaseSegment LowAddr Slide (u64 (Seg.virtual_address + Slide))
          Seg.virtual_size Seg.relocations t).mem := by
  unfold loadSegment at h
  obtain ⟨_, s0, h0, h1⟩ := bind_eq_ok h
  cases h1
  refine ⟨s0, ?_, rfl⟩
  unfold placeSegment
  by_cases hp : toPerms Seg.init_protection = UC_PROT_NONE
  · rw [if_pos hp] at h0
    rw [if_pos hp]
    exact (callUC_mem h0).trans rfl
  · rw [if_neg hp] at h0
    rw [if_neg hp]
    obtain ⟨_, s2, h2, h3⟩ := bind_eq_ok h0
    have e2 : s2.mem = memcpy s.mem (u64 (Seg.virtual_address + Slide)) Seg.content :=
      (callUC_mem h2).trans rfl
    split_ifs at h3 with hl
    · cases h3
      rw [if_pos hl]
      simp only [e2]
    · cases h3
      rw [if_neg hl]
      exact e2

theorem wordsApart_symm {a b : Nat} (h : WordsApart a b) : WordsApart b a := by
  unfold WordsApart at h ⊢
  omega

theorem loadSegments_append {w : World} {LowAddr Slide : Nat} (pre post : List SegmentCommand)
    {s s1 : State} {u : Unit} (h : loadSegments w LowAddr Slide (pre ++ post) s = .ok u s1) :
    ∃ sa, loadSegments w LowAddr Slide pre s = .ok () sa
      ∧ loadSegments w LowAddr Slide post sa = .ok u s1 := by
  induction pre generalizing s with
  | nil => exact ⟨s, rfl, h⟩
  | cons S rest ih =>
    rw [List.cons_append] at h
    unfold loadSegments at h
    obtain ⟨_, s0, h0, h1⟩ := bind_eq_ok h
    obtain ⟨sa, ha, hb⟩ := ih h1
    refine ⟨sa, ?_, hb⟩
    unfold loadSegments
    rw [h0]
    exact ha

/-- While no relocation touches the word at `a`, the segment loop leaves
there what the pre-image holds. -/
theorem loadSegments_agree_preImage {w : World} {LowAddr Slide : Nat}
    (segs : List SegmentCommand) {s s1 : State} {u : Unit} (a : Nat) (m2 : Memory)
    (h : loadSegments w LowAddr Slide segs s = .ok u s1) (hm : AgreeAt a s.mem m2)
    (hap : ∀ S ∈ segs, ∀ R ∈ S.relocations, WordsApart (relocSite LowAddr Slide R) a) :
    AgreeAt a s1.mem (preImage Slide segs m2) := by
  induction segs generalizing s m2 with
  | nil =>
    cases h
    exact hm
  | cons S rest ih =>
    unfold loadSegments at h
    obtain ⟨_, s0, h0, h1⟩ := bind_eq_ok h
    obtain ⟨t, ht, hs0⟩ := loadSegment_mem h0
    have hS := hap S (List.mem_cons_self _ _)
    have e0 : AgreeAt a s0.mem (placeSegment Slide m2 S) := by
      rw [hs0]
      refine agree_trans (rebaseSegment_agree_apart _ _ _ _ _ t a hS) ?_
      rw [ht]
      exact placeSegment_agree Slide S hm
    exact ih (placeSegment Slide m2 S) h1 e0 fun S1 h1 => hap S1 (List.mem_cons_of_mem _ h1)

/-- Segments that neither place nor relocate anything at `a` leave the word
there as it is. -/
theorem loadSegments_agree_untouched {w : World} {LowAddr Slide : Nat}
    (segs : List SegmentCommand) {s s1 : State} {u : Unit} (a : Nat)
    (h : loadSegments w LowAddr Slide segs s = .ok u s1)
    (hun : ∀ S ∈ segs, Untouched Slide S a)
    (hap : ∀ S ∈ segs, ∀ R ∈ S.relocations, WordsApart (relocSite LowAddr Slide R) a) :
    AgreeAt a s1.mem s.mem := by
  induction segs generalizing s with
  | nil =>
    cases h
    exact agree_refl _ _
  | cons S rest ih =>
    unfold loadSegments at h
    obtain ⟨_, s0, h0, h1⟩ := bind_eq_ok h
    obtain ⟨t, ht, hs0⟩ := loadSegment_mem h0
    have e0 : AgreeAt a s0.mem s.mem := by
      rw [hs0]
      refine agree_trans
        (rebaseSegment_agree_apart _ _ _ _ _ t a (hap S (List.mem_cons_self _ _))) ?_
      rw [ht]
      exact placeSegment_untouched Slide S a s.mem (hun S (List.mem_cons_self _ _))
    exact agree_trans (ih h1 (fun S1 h1 => hun S1 (List.mem_cons_of_mem _ h1))
      fun S1 h1 => hap S1 (List.mem_cons_of_mem _ h1)) e0

/-- The segment loop of `loadMachO` against the pre-image: when the
relocation sites of the image share no byte and no later segment is placed
over the site, the word at the site of a relocation is the pre-image word
plus the slide modulo `2 ^ 32`, or still zero. -/
theorem loadSegments_rebased (w : World) (LowAddr Slide : Nat) (pre post : List SegmentCommand)
    (Seg : SegmentCommand) (Rel : Relocation) (hRel : Rel ∈ Seg.relocations) {s s1 : State}
    {u : Unit} (h : loadSegments w LowAddr Slide (pre ++ Seg :: post) s = .ok u s1)
    (hapart : ((pre ++ Seg :: post).flatMap fun S => S.relocations).Pairwise fun r1 r2 =>
      WordsApart (relocSite LowAddr Slide r1) (relocSite LowAddr Slide r2))
    (hlater : ∀ S ∈ post, Untouched Slide S (relocSite LowAddr Slide Rel)) :
    read32 s1.mem (relocSite LowAddr Slide Rel)
      = if read32 (preImage Slide (pre ++ Seg :: post) s.mem) (relocSite LowAddr Slide Rel) = 0
          then 0
        else u32 (read32 (preImage Slide (pre ++ Seg :: post) s.mem)
          (relocSite LowAddr Slide Rel) + Slide) := by
  simp only [List.flatMap_append, List.flatMap_cons, List.pairwise_append] at hapart
  obtain ⟨_, ⟨hseg, _, hpost⟩, hpre⟩ := hapart
  have apre : ∀ S ∈ pre, ∀ R ∈ S.relocations,
      WordsApart (relocSite LowAddr Slide R) (relocSite LowAddr Slide Rel) :=
    fun S hS R hR => hpre R (List.mem_flatMap.2 ⟨S, hS, hR⟩) Rel
      (List.mem_append_left _ hRel)
  have apost : ∀ S ∈ post, ∀ R ∈ S.relocations,
      WordsApart (relocSite LowAddr Slide R) (relocSite LowAddr Slide Rel) :=
    fun S hS R hR => wordsApart_symm (hpost Rel hRel R (List.mem_flatMap.2 ⟨S, hS, hR⟩))
  obtain ⟨sa, ha, hrest⟩ := loadSegments_append pre (Seg :: post) h
  unfold loadSegments at hrest
  obtain ⟨_, sb, hb, hc⟩ := bind_eq_ok hrest
  obtain ⟨t, ht, hsb⟩ := loadSegment_mem hb
  have e1 : AgreeAt (relocSite LowAddr Slide Rel) sa.mem (preImage Slide pre s.mem) :=
    loadSegments_agree_preImage pre _ _ ha (agree_refl _ _) apre
  have e2 : read32 t.mem (relocSite LowAddr Slide Rel)
      = read32 (preImage Slide (pre ++ Seg :: post) s.mem) (relocSite LowAddr Slide Rel) := by
    have e3 : preImage Slide (pre ++ Seg :: post) s.mem
        = preImage Slide post (placeSegment Slide (preImage Slide pre s.mem) Seg) := by
      simp [preImage, List.foldl_append]
    rw [e3, ht]
    exact read32_agree (agree_trans (placeSegment_agree Slide Seg e1)
      (agree_symm (preImage_untouched Slide post _ _ hlater)))
  have e4 : read32 s1.mem (relocSite LowAddr Slide Rel)
      = read32 sb.mem (relocSite LowAddr Slide Rel) :=
    read32_agree (loadSegments_agree_untouched post _ hc hlater apost)
  rw [e4, hsb, rebase_sites _ _ _ _ _ t hseg Rel hRel, e2]

theorem sizeSegment_mem (w : World) (acc : Bounds × State) (Seg : SegmentCommand) :
    (sizeSegment w acc Seg).2.mem = acc.2.mem := by
  unfold sizeSegment
  simp only [error]
  split_ifs <;> rfl

theorem foldl_sizeSegment_mem (w : World) (segs : List SegmentCommand) (acc : Bounds × State) :
    (segs.foldl (sizeSegment w) acc).2.mem = acc.2.mem := by
  induction segs generalizing acc with
  | nil => rfl
  | cons Seg rest ih => rw [List.foldl_cons, ih, sizeSegment_mem]

theorem checkHeader_mem (Bin : Binary) (s : State) : (checkHeader Bin s).mem = s.mem := by
  unfold checkHeader
  simp only [error]
  split_ifs <;> rfl

theorem machoSized_mem (w : World) (Path : String) (s : State) :
    (machoSized w Path s).2.mem = s.mem := by
  unfold machoSized sizeSegments
  rw [foldl_sizeSegment_mem, checkHeader_mem]

theorem setWrapperFlag_mem {BP : BinaryPath} {L r : LibPtr} {s s1 : State}
    (h : setWrapperFlag BP L s = .ok r s1) : s1.mem = s.mem := by
  obtain ⟨_, _, _, _, _, _⟩ := setWrapperFlag_record h
  unfold setWrapperFlag at h
  split at h
  · cases h
  · split at h
    · cases h
    · cases h
      rfl

theorem state_of_ok {α : Type} {o : Outcome α} {v : α} {s : State} (h : o = .ok v s) :
    o.state = s := by
  rw [h]
  rfl

/-- C3 (amended): when the first `load` of a Mach-O image returns, the
image having been loaded with slide `s`, then for every relocation recorded
for a segment of the image the 32-bit word at its site after loading is the
pre-image word plus `s` modulo `2 ^ 32` if the pre-image word is non-zero,
and is still zero if it is zero, provided that the relocation sites of the
image share no byte, that no later segment is copied or cleared over the
site, and that the word the segment loop leaves at the site is not changed
afterwards by the loading of the referenced libraries or the binding of
symbols. The pre-image is the image with every segment copied and cleared
at its slid address and no pointer rebased. -/
theorem load_rebased (w : World) (n : Nat) (Path : String) (s sF : State) (r : LibPtr)
    (hload : load w (n + 1) Path s = .ok r sF)
    (hreg : Registry.find s.LIs (resolvePath w Path).Path = none)
    (hvalid : w.isFileValid (resolvePath w Path) = true)
    (hmacho : w.is_macho (resolvePath w Path).Path = true)
    (pre post : List SegmentCommand) (Seg : SegmentCommand)
    (hsegs : (w.parse (resolvePath w Path).Path).segments = pre ++ Seg :: post)
    (Rel : Relocation) (hRel : Rel ∈ Seg.relocations)
    (hapart : ((w.parse (resolvePath w Path).Path).segments.flatMap
        fun S => S.relocations).Pairwise fun r1 r2 =>
      WordsApart (siteOf w (resolvePath w Path).Path s r1)
        (siteOf w (resolvePath w Path).Path s r2))
    (hlater : ∀ S ∈ post, Untouched (machoSlide w (resolvePath w Path).Path s) S
      (siteOf w (resolvePath w Path).Path s Rel))
    (hkeep : read32 sF.mem (siteOf w (resolvePath w Path).Path s Rel)
      = read32 (segmentsLoaded w (resolvePath w Path).Path s).state.mem
          (siteOf w (resolvePath w Path).Path s Rel)) :
    read32 sF.mem (siteOf w (resolvePath w Path).Path s Rel)
      = if read32 (preImage (machoSlide w (resolvePath w Path).Path s)
            (w.parse (resolvePath w Path).Path).segments s.mem)
            (siteOf w (resolvePath w Path).Path s Rel) = 0 then 0
        else u32 (read32 (preImage (machoSlide w (resolvePath w Path).Path s)
            (w.parse (resolvePath w Path).Path).segments s.mem)
            (siteOf w (resolvePath w Path).Path s Rel)
          + machoSlide w (resolvePath w Path).Path s) := by
  rw [load_succ] at hload
  unfold loadStep at hload
  simp only [hreg, hvalid, hmacho, Bool.not_true, Bool.false_eq_true, if_false, if_true]
    at hload
  obtain ⟨L, s8, h8, _⟩ := bind_eq_ok hload
  rw [loadMachO_phases] at h8
  obtain ⟨_, s6, h6, _⟩ := bind_eq_ok h8
  rw [hkeep, state_of_ok h6]
  have key : ∀ s5 : State, s5.mem = s.mem →
      loadSegments w (machoLow w (resolvePath w Path).Path s)
        (machoSlide w (resolvePath w Path).Path s) (pre ++ Seg :: post) s5 = .ok () s6 →
      read32 s6.mem (siteOf w (resolvePath w Path).Path s Rel)
        = if read32 (preImage (machoSlide w (resolvePath w Path).Path s)
              (pre ++ Seg :: post) s.mem) (siteOf w (resolvePath w Path).Path s Rel) = 0 then 0
          else u32 (read32 (preImage (machoSlide w (resolvePath w Path).Path s)
              (pre ++ Seg :: post) s.mem) (siteOf w (resolvePath w Path).Path s Rel)
            + machoSlide w (resolvePath w Path).Path s) := by
    intro s5 hm h5
    rw [hsegs] at hapart
    have hmem := loadSegments_rebased w _ _ pre post Seg Rel hRel h5 hapart hlater
    rw [hm] at hmem
    exact hmem
  unfold segmentsLoaded at h6
  rw [hsegs] at h6 ⊢
  refine key _ ?_ h6
  simp only
  split_ifs
  · exact machoSized_mem w _ s
  · exact machoSized_mem w _ s

/-- Instance of `load_rebased`: the image `rebasedBinary` (two segments
with relocations, the library `lib.dll`, one binding at `0x1008`) loaded at
`0x200000`; the word `0x1000` at offset 4 of the first segment becomes
`0x201000` and the word `0x1010` at the start of the second segment becomes
`0x201010`. -/
theorem load_rebased_witness :
    read32 (load (appWorld rebasedBinary) 2 "app" emptyState).state.mem 0x200004 = 0x201000
    ∧ read32 (load (appWorld rebasedBinary) 2 "app" emptyState).state.mem 0x201000 = 0x201010 :=
  ⟨load_rebased (appWorld rebasedBinary) 1 "app" emptyState
      (load (appWorld rebasedBinary) 2 "app" emptyState).state (some "app") rfl rfl rfl rfl
      [] [dataSegment] textSegment rfl ⟨false, true, 32, 4⟩ (by decide) (by decide) (by decide)
      (by decide),
   load_rebased (appWorld rebasedBinary) 1 "app" emptyState
      (load (appWorld rebasedBinary) 2 "app" emptyState).state (some "app") rfl rfl rfl rfl
      [textSegment] [] dataSegment rfl ⟨false, true, 32, 0x1000⟩ (by decide) (by decide)
      (by decide) (by decide)⟩

end IpaSim
